import Mathlib

set_option maxHeartbeats 1000000

/-!
Verification development for the rust-client-toolbox ledger-to-graph
synchronizer. The definitions below are a shallow embedding of the Rust
sources (client/src/utils.rs, client/src/jwt.rs, ledger-explorer/src/cypher.rs,
ledger-explorer/src/graph.rs, ledger-explorer/src/sync.rs,
ledger-explorer/src/api_record_to_json.rs). Machine integers (i32, i64) are
embedded as Int: the embedded code only compares and copies them, it never
performs arithmetic that could overflow. Fallible external calls are passed
in as Except values. External library behaviour (serde_json, chrono, neo4rs,
the std HashSet iteration order) is modelled by explicit deterministic Lean
functions or explicit parameters, as documented at each definition.
-/

/-- Models a serde_json Value. serde_json objects are BTreeMaps, so object
fields are kept as an association list in strictly ascending key order
(see mapInsert / mapOfList below, which model the BTreeMap insertion). -/
inductive Json where
  | null : Json
  | bool (b : Bool) : Json
  | int (n : Int) : Json
  | str (s : String) : Json
  | arr (elements : List Json) : Json
  | obj (fields : List (String × Json)) : Json
deriving Repr, BEq

/-- Lexicographic order on character lists by code point, used to model the
byte order of BTreeMap keys with an order that evaluates inside the kernel. -/
def charListLt : List Char → List Char → Bool
  | [], [] => false
  | [], _ :: _ => true
  | _ :: _, [] => false
  | a :: as, b :: bs =>
    if a.toNat < b.toNat then true
    else if b.toNat < a.toNat then false
    else charListLt as bs

def strLt (a b : String) : Bool :=
  charListLt a.data b.data

/-- Models BTreeMap insertion: keep keys sorted, replace the value on an
existing key. -/
def mapInsert (k : String) (v : Json) : List (String × Json) → List (String × Json)
  | [] => [(k, v)]
  | (k2, v2) :: rest =>
    if strLt k k2 then (k, v) :: (k2, v2) :: rest
    else if k == k2 then (k, v) :: rest
    else (k2, v2) :: mapInsert k v rest

/-- Models collecting an iterator of key/value pairs into a serde_json Map. -/
def mapOfList (kvs : List (String × Json)) : List (String × Json) :=
  kvs.foldl (fun m kv => mapInsert kv.1 kv.2 m) []

/-- Shorthand for the json! macro building an object literal. -/
def jsonObj (kvs : List (String × Json)) : Json :=
  Json.obj (mapOfList kvs)

def hexDigit (n : Nat) : Char :=
  Char.ofNat (if n < 10 then 48 + n else 87 + n)

def hex4 (n : Nat) : String :=
  String.mk [hexDigit (n / 4096 % 16), hexDigit (n / 256 % 16),
             hexDigit (n / 16 % 16), hexDigit (n % 16)]

/-- Models the serde_json string escaping (quote, backslash, control
characters). -/
def escapeJsonChar (c : Char) : String :=
  if c = Char.ofNat 34 then "\\\""
  else if c = Char.ofNat 92 then "\\\\"
  else if c = Char.ofNat 10 then "\\n"
  else if c = Char.ofNat 13 then "\\r"
  else if c = Char.ofNat 9 then "\\t"
  else if c.toNat < 32 then "\\u" ++ hex4 c.toNat
  else String.singleton c

def escapeJsonString (s : String) : String :=
  String.join (s.toList.map escapeJsonChar)

def quoteJson (s : String) : String :=
  "\"" ++ escapeJsonString s ++ "\""

mutual

/-- Models serde_json to_string on a Value (compact rendering, no spaces). -/
def renderJson : Json → String
  | .null => "null"
  | .bool b => if b then "true" else "false"
  | .int n => toString n
  | .str s => quoteJson s
  | .arr xs => "[" ++ String.intercalate "," (renderJsonList xs) ++ "]"
  | .obj kvs =>
      "\x7b" ++ String.intercalate "," (renderJsonFields kvs) ++ "\x7d"

def renderJsonList : List Json → List String
  | [] => []
  | j :: rest => renderJson j :: renderJsonList rest

def renderJsonFields : List (String × Json) → List String
  | [] => []
  | (k, v) :: rest => (quoteJson k ++ ":" ++ renderJson v) :: renderJsonFields rest

end

/-!
Ledger API value model. The generated protobuf type Value is a struct with a
single field sum of optional tagged-union type; we identify Value with
Option VSum. Variants the projection never converts (Unit, Date, Timestamp)
are carried so that the catch-all match arms of the source are represented.
Nested Option Option arises exactly where the protobuf has an optional field
of message type Value.
-/
inductive VSum where
  | unitV : VSum
  | boolV (b : Bool) : VSum
  | int64 (i : Int) : VSum
  | date (d : Int) : VSum
  | timestampV (t : Int) : VSum
  | numericV (n : String) : VSum
  | party (p : String) : VSum
  | text (t : String) : VSum
  | contractId (cid : String) : VSum
  | optionalV (value : Option (Option VSum)) : VSum
  | listV (elements : List (Option VSum)) : VSum
  | textMap (entries : List (String × Option (Option VSum))) : VSum
  | genMap (entries : List (Option (Option VSum) × Option (Option VSum))) : VSum
  | recordV (fields : List (String × Option (Option VSum))) : VSum
  | variantV (constructor : String) (value : Option (Option VSum)) : VSum
  | enumV (constructor : String) : VSum
deriving Repr, BEq

/-- The protobuf message Value, identified with its single optional sum
field. -/
abbrev LapiValue := Option VSum

/-- The protobuf message Record; record_id is omitted (never read by the
embedded code), fields are (label, value) pairs. -/
structure LapiRecord where
  fields : List (String × Option LapiValue)
deriving Repr, BEq

mutual

/-- Embeds extract_contract_ids_from_value (client/src/utils.rs lines 10-26),
specialized to the non-trivial case where the Value has a sum. A ContractId
leaf yields one id, a List recurses into its elements, everything else
yields nothing; traversal order is preserved. -/
def extractIdsSum : VSum → List String
  | .contractId cid => [cid]
  | .listV elems => extractIdsValueList elems
  | _ => []

def extractIdsValueList : List (Option VSum) → List String
  | [] => []
  | v :: rest =>
    (match v with
     | some s => extractIdsSum s
     | none => []) ++ extractIdsValueList rest

end

/-- Embeds extract_contract_ids_from_value on an optional Value argument. -/
def extract_contract_ids_from_value (value : Option LapiValue) : List String :=
  match value with
  | some (some s) => extractIdsSum s
  | _ => []

mutual

/-- Embeds api_value_to_json (ledger-explorer/src/api_record_to_json.rs),
flattened over the optional sum of the Value argument; the final arm is the
catch-all of the source (missing sum, Unit, Date, Timestamp). -/
def api_value_to_json : Option VSum → Json
  | some (.text s) => .str s
  | some (.int64 i) => .int i
  | some (.boolV b) => .bool b
  | some (.numericV n) => .str n
  | some (.party p) => .str p
  | some (.contractId cid) => .str cid
  | some (.recordV fields) => Json.obj (mapOfList (apiRecordFieldsToJson fields))
  | some (.optionalV (some inner)) => api_value_to_json inner
  | some (.optionalV none) => Json.null
  | some (.listV elems) => Json.arr (apiListToJson elems)
  | some (.textMap entries) => Json.obj (mapOfList (apiTextMapToJson entries))
  | some (.genMap entries) => Json.arr (apiGenMapToJson entries)
  | some (.variantV ctor val) =>
      jsonObj [("constructor", .str ctor),
               ("value", match val with
                         | some v => api_value_to_json v
                         | none => .str "Couldn\x27t convert")]
  | some (.enumV ctor) => jsonObj [("constructor", .str ctor)]
  | _ => .str "Couldn\x27t convert"

def apiRecordFieldsToJson : List (String × Option (Option VSum)) → List (String × Json)
  | [] => []
  | (label, value) :: rest =>
    (label, match value with
            | some v => api_value_to_json v
            | none => .str "Couldn\x27t convert") :: apiRecordFieldsToJson rest

def apiListToJson : List (Option VSum) → List Json
  | [] => []
  | v :: rest => api_value_to_json v :: apiListToJson rest

def apiTextMapToJson : List (String × Option (Option VSum)) → List (String × Json)
  | [] => []
  | (key, value) :: rest =>
    (key, match value with
          | some v => api_value_to_json v
          | none => .str "Couldn\x27t convert") :: apiTextMapToJson rest

def apiGenMapToJson : List (Option (Option VSum) × Option (Option VSum)) → List Json
  | [] => []
  | (k, v) :: rest =>
    jsonObj [("key", match k with
                     | some kv => api_value_to_json kv
                     | none => .str "Couldn\x27t convert"),
             ("value", match v with
                       | some vv => api_value_to_json vv
                       | none => .str "Couldn\x27t convert")] :: apiGenMapToJson rest

end

/-- Embeds api_record_to_json (ledger-explorer/src/api_record_to_json.rs
lines 4-13). -/
def api_record_to_json (record : LapiRecord) : Json :=
  Json.obj (mapOfList (apiRecordFieldsToJson record.fields))

/-- Embeds choice_argument_json (ledger-explorer/src/api_record_to_json.rs
lines 78-89). -/
def choice_argument_json (choice_argument : Option LapiValue) : Json :=
  match choice_argument with
  | some (some (.recordV fields)) => Json.obj (mapOfList (apiRecordFieldsToJson fields))
  | some _ => .str "Couldn\x27t convert"
  | none => .str "Couldn\x27t convert"

mutual

/-- Models the serde serialization of the raw generated protobuf Value (the
create_arguments / choice_argument raw fields of the emitted statements).
The exact serde field layout of the generated types is external to the
repository; it is modelled as this deterministic structure-preserving
rendering. No claim depends on the rendered text, only on the fact that it
is a pure function of the input. -/
def rawValueJson : Option VSum → Json
  | none => jsonObj [("sum", Json.null)]
  | some s => jsonObj [("sum", rawSumJson s)]

def rawSumJson : VSum → Json
  | .unitV => jsonObj [("Unit", Json.obj [])]
  | .boolV b => jsonObj [("Bool", .bool b)]
  | .int64 i => jsonObj [("Int64", .int i)]
  | .date d => jsonObj [("Date", .int d)]
  | .timestampV t => jsonObj [("Timestamp", .int t)]
  | .numericV n => jsonObj [("Numeric", .str n)]
  | .party p => jsonObj [("Party", .str p)]
  | .text t => jsonObj [("Text", .str t)]
  | .contractId cid => jsonObj [("ContractId", .str cid)]
  | .optionalV v =>
      jsonObj [("Optional", match v with
                            | some inner => rawValueJson inner
                            | none => Json.null)]
  | .listV elems => jsonObj [("List", Json.arr (rawValueListJson elems))]
  | .textMap entries => jsonObj [("TextMap", Json.arr (rawTextMapJson entries))]
  | .genMap entries => jsonObj [("GenMap", Json.arr (rawGenMapJson entries))]
  | .recordV fields => jsonObj [("Record", Json.arr (rawFieldsJson fields))]
  | .variantV ctor val =>
      jsonObj [("Variant", jsonObj
        [("constructor", .str ctor),
         ("value", match val with
                   | some inner => rawValueJson inner
                   | none => Json.null)])]
  | .enumV ctor => jsonObj [("Enum", .str ctor)]

def rawValueListJson : List (Option VSum) → List Json
  | [] => []
  | v :: rest => rawValueJson v :: rawValueListJson rest

def rawFieldsJson : List (String × Option (Option VSum)) → List Json
  | [] => []
  | (label, value) :: rest =>
    jsonObj [("label", .str label),
             ("value", match value with
                       | some v => rawValueJson v
                       | none => Json.null)] :: rawFieldsJson rest

def rawTextMapJson : List (String × Option (Option VSum)) → List Json
  | [] => []
  | (key, value) :: rest =>
    jsonObj [("key", .str key),
             ("value", match value with
                       | some v => rawValueJson v
                       | none => Json.null)] :: rawTextMapJson rest

def rawGenMapJson : List (Option (Option VSum) × Option (Option VSum)) → List Json
  | [] => []
  | (k, v) :: rest =>
    jsonObj [("key", match k with
                     | some kv => rawValueJson kv
                     | none => Json.null),
             ("value", match v with
                       | some vv => rawValueJson vv
                       | none => Json.null)] :: rawGenMapJson rest

end

/-- Models serde_json to_string on the raw generated Record struct. -/
def serialize_record_raw (args : LapiRecord) : String :=
  renderJson (jsonObj [("fields", Json.arr (rawFieldsJson args.fields))])

/-- Models serde_json to_string on the raw generated Value struct. -/
def serialize_value_raw (v : LapiValue) : String :=
  renderJson (rawValueJson v)

/-!
Timestamp formatting. The source formats protobuf timestamps through chrono:
DateTime::from_timestamp(seconds, nanos as u32) followed by the format string
with year, month, day, hour, minute, second and a trailing Z. chrono is
external to the repository; it is modelled by the standard civil-from-days
calendar algorithm below. The i32 nanos field is cast to u32 (wrapping), and
from_timestamp rejects a nanosecond value of two seconds or more or an
out-of-range second count, returning none.
-/

structure ProtoTimestamp where
  seconds : Int
  nanos : Int
deriving Repr, BEq, DecidableEq

def pad2 (n : Int) : String :=
  if n < 10 then "0" ++ toString n else toString n

def pad4Nat (n : Nat) : String :=
  if n < 10 then "000" ++ toString n
  else if n < 100 then "00" ++ toString n
  else if n < 1000 then "0" ++ toString n
  else toString n

def pad4 (n : Int) : String :=
  if n < 0 then "-" ++ pad4Nat (-n).toNat else pad4Nat n.toNat

/-- Civil calendar date from a day count relative to 1970-01-01
(the standard era-based algorithm): returns (year, month, day). -/
def civilFromDays (z0 : Int) : Int × Int × Int :=
  let z := z0 + 719468
  let era := Int.fdiv z 146097
  let doe := z - era * 146097
  let yoe := Int.fdiv (doe - Int.fdiv doe 1460 + Int.fdiv doe 36524 - Int.fdiv doe 146096) 365
  let y := yoe + era * 400
  let doy := doe - (365 * yoe + Int.fdiv yoe 4 - Int.fdiv yoe 100)
  let mp := Int.fdiv (5 * doy + 2) 153
  let d := doy - Int.fdiv (153 * mp + 2) 5 + 1
  let m := mp + (if mp < 10 then 3 else -9)
  (y + (if m ≤ 2 then 1 else 0), m, d)

/-- Models chrono DateTime::from_timestamp followed by the format used
throughout cypher.rs, with the i32 to u32 cast on the nanos argument. -/
def datetime_format (seconds : Int) (nanos : Int) : Option String :=
  let nanosU := Int.emod nanos 4294967296
  if 2000000000 ≤ nanosU then none
  else if seconds < -8334601228800 ∨ 8210266876799 < seconds then none
  else
    let days := Int.fdiv seconds 86400
    let sod := seconds - days * 86400
    let ymd := civilFromDays days
    let h := Int.fdiv sod 3600
    let mi := Int.fdiv (sod - h * 3600) 60
    let s := sod - h * 3600 - mi * 60
    some (pad4 ymd.1 ++ "-" ++ pad2 ymd.2.1 ++ "-" ++ pad2 ymd.2.2 ++ "T" ++
          pad2 h ++ ":" ++ pad2 mi ++ ":" ++ pad2 s ++ "Z")

/-- Applies datetime_format to an optional timestamp field with the
unwrap_or_default of the source (empty string when absent or invalid). -/
def formatOptTimestamp (ts : Option ProtoTimestamp) : String :=
  match ts with
  | some t => (datetime_format t.seconds t.nanos).getD ""
  | none => ""

/-!
Ledger API event and transaction messages (spec section 3 data model; the
generated protobuf structs are external build outputs). Only the fields read
by the embedded code are carried.
-/

structure Identifier where
  package_id : String
  module_name : String
  entity_name : String
deriving Repr, BEq, DecidableEq

structure CreatedEvent where
  offset : Int
  node_id : Int
  contract_id : String
  template_id : Option Identifier
  create_arguments : Option LapiRecord
  created_at : Option ProtoTimestamp
  signatories : List String
deriving Repr, BEq

structure ExercisedEvent where
  offset : Int
  node_id : Int
  contract_id : String
  choice : String
  choice_argument : Option LapiValue
  acting_parties : List String
  consuming : Bool
  exercise_result : Option LapiValue
  last_descendant_node_id : Int
deriving Repr, BEq

/-- The tagged union inside an Event; Archived is carried so that the
catch-all arms of the source are represented. -/
inductive EventSum where
  | created (c : CreatedEvent) : EventSum
  | archived (contract_id : String) : EventSum
  | exercised (e : ExercisedEvent) : EventSum
deriving Repr, BEq

structure LapiEvent where
  event : Option EventSum
deriving Repr, BEq

structure TraceContext where
  traceparent : Option String
  tracestate : Option String
deriving Repr, BEq, DecidableEq

structure LapiTransaction where
  update_id : String
  command_id : String
  workflow_id : String
  effective_at : Option ProtoTimestamp
  events : List LapiEvent
  offset : Int
  synchronizer_id : String
  trace_context : Option TraceContext
  record_time : Option ProtoTimestamp
deriving Repr, BEq

/-- The tagged union inside GetUpdatesResponse; the non-transaction variants
carry only their offset, the single field the embedded code reads. -/
inductive LapiUpdate where
  | transaction (tx : LapiTransaction) : LapiUpdate
  | reassignment (offset : Int) : LapiUpdate
  | offsetCheckpoint (offset : Int) : LapiUpdate
  | topologyTransaction (offset : Int) : LapiUpdate
deriving Repr, BEq

structure GetUpdatesResponse where
  update : Option LapiUpdate
deriving Repr, BEq

/-!
Structure markers and edge extraction (client/src/utils.rs lines 50-112).
-/

structure StructureMarker where
  offset : Int
  node_id : Int
  last_descendant_node_id : Int
deriving Repr, DecidableEq

/-- Embeds structure_markers_from_transaction (utils.rs lines 58-82):
Created events contribute a marker whose last descendant is the node itself,
Exercised events contribute their own last_descendant_node_id, other events
contribute nothing. -/
def structure_markers_from_transaction (transaction : LapiTransaction) : List StructureMarker :=
  transaction.events.foldr
    (fun event markers =>
      match event.event with
      | some (.created created) =>
          { offset := created.offset, node_id := created.node_id,
            last_descendant_node_id := created.node_id } :: markers
      | some (.exercised exercised) =>
          { offset := exercised.offset, node_id := exercised.node_id,
            last_descendant_node_id := exercised.last_descendant_node_id } :: markers
      | _ => markers)
    []

/-- Embeds the inner while-let pop loop of extract_edges: pop stack entries
whose last descendant precedes the node about to be processed. The head of
the list is the top of the stack. -/
def popStack (node_id : Int) (stack : List StructureMarker) : List StructureMarker :=
  stack.dropWhile (fun top => decide (top.last_descendant_node_id < node_id))

/-- Embeds the main loop of extract_edges (utils.rs lines 92-109) over the
already sorted marker list, threading the ancestor stack. Each emitted edge
is (child offset, parent node_id, child node_id). -/
def extractEdgesLoop : List StructureMarker → List StructureMarker → List (Int × Int × Int)
  | _, [] => []
  | stack, m :: rest =>
    let popped := popStack m.node_id stack
    (match popped.head? with
     | some parent => [(m.offset, parent.node_id, m.node_id)]
     | none => []) ++ extractEdgesLoop (m :: popped) rest

/-- The sort key order of extract_edges: ascending node_id. -/
def markerLe (a b : StructureMarker) : Prop :=
  a.node_id ≤ b.node_id

instance : DecidableRel markerLe := fun a b => inferInstanceAs (Decidable (_ ≤ _))

instance : IsTotal StructureMarker markerLe :=
  ⟨fun a b => Int.le_total a.node_id b.node_id⟩

instance : IsTrans StructureMarker markerLe :=
  ⟨fun _ _ _ hab hbc => le_trans hab hbc⟩

/-- Embeds extract_edges (utils.rs lines 84-112): sort the markers by
ascending node_id (a stable sort, as Rust sort_by_key), then run the
ancestor-stack traversal. -/
def extract_edges (markers : List StructureMarker) : List (Int × Int × Int) :=
  let sorted := markers.insertionSort markerLe
  extractEdgesLoop [] sorted

/-!
CypherQuery model (ledger-explorer/src/cypher.rs lines 10-76). The Rust
struct carries the cypher text, a debug rendering of the macro-passed
parameters, and the underlying neo4rs Query; the Query itself is opaque, so
the embedding carries its attached parameters as a typed association list in
attachment order (queryParams). with_json_param extends only queryParams,
exactly as the source leaves the debug params empty for UNWIND statements.
-/

inductive BoltParam where
  | str (s : String) : BoltParam
  | int (n : Int) : BoltParam
  | json (j : Json) : BoltParam
deriving Repr, BEq

structure CypherQuery where
  cypher : String
  params : List (String × String)
  queryParams : List (String × BoltParam)
deriving Repr, BEq

/-- Models the Rust Debug formatting of a String (quoted and escaped),
used by the cypher_query! macro for its debug params. -/
def rustDebugString (s : String) : String :=
  quoteJson s

def cypherQueryNew (cypher : String) : CypherQuery :=
  { cypher := cypher, params := [], queryParams := [] }

def with_json_param (q : CypherQuery) (key : String) (value : Json) : CypherQuery :=
  { q with queryParams := q.queryParams ++ [(key, .json value)] }

/-!
The projection function get_updates_response_to_cypher
(ledger-explorer/src/cypher.rs lines 81-427), split into one definition per
step of the source in source order. The string literals reproduce the Rust
string literals byte for byte (Rust backslash line continuations removed).
-/

def tx_create_cypher : String :=
  "CREATE (t:Transaction \x7b label: $label, update_id: $update_id, command_id: $command_id, workflow_id: $workflow_id, offset: $offset, synchronizer_id: $synchronizer_id, effective_at: $effective_at, record_time: $record_time, traceparent: $traceparent, tracestate: $tracestate \x7d)"

def created_batch_cypher : String :=
  "UNWIND $events AS e CREATE (c:Created \x7b contract_id: e.contract_id, template_name: e.template_name, label: e.label, signatories: e.signatories, offset: e.offset, node_id: e.node_id, created_at: e.created_at, create_arguments: e.create_arguments, create_arguments_json: e.create_arguments_json \x7d)"

def exercised_batch_cypher : String :=
  "UNWIND $events AS e CREATE (ex:Exercised \x7b label: e.label, choice_name: e.choice_name, target_contract_id: e.target_contract_id, acting_parties: e.acting_parties, offset: e.offset, node_id: e.node_id, consuming: e.consuming, result_contract_ids: e.result_contract_ids, last_descendant_node_id: e.last_descendant_node_id, transaction_effective_at: e.transaction_effective_at, choice_argument: e.choice_argument, choice_argument_json: e.choice_argument_json \x7d)"

def consequence_cypher : String :=
  "UNWIND $edges AS e MATCH (parent \x7boffset: e.offset, node_id: e.parent_id\x7d), (child \x7boffset: e.offset, node_id: e.child_id\x7d) CREATE (parent)-[:CONSEQUENCE]->(child)"

def target_cypher : String :=
  "UNWIND $rels AS r MATCH (e:Exercised \x7boffset: r.offset, node_id: r.node_id\x7d), (c:Created \x7bcontract_id: r.target_contract_id\x7d) CREATE (e)-[:TARGET]->(c)"

def consumes_cypher : String :=
  "UNWIND $rels AS r MATCH (e:Exercised \x7boffset: r.offset, node_id: r.node_id\x7d), (c:Created \x7bcontract_id: r.target_contract_id\x7d) CREATE (e)-[:CONSUMES]->(c)"

def action_exercised_cypher : String :=
  "UNWIND $rels AS r MATCH (t:Transaction \x7boffset: r.offset\x7d), (e:Exercised \x7boffset: r.offset, node_id: r.node_id\x7d) CREATE (t)-[:ACTION]->(e)"

def action_created_cypher : String :=
  "UNWIND $rels AS r MATCH (t:Transaction \x7boffset: r.offset\x7d), (c:Created \x7boffset: r.offset, node_id: r.node_id\x7d) CREATE (t)-[:ACTION]->(c)"

def party_merge_cypher : String :=
  "UNWIND $parties AS p MERGE (party:Party \x7bparty_id: p.party_id\x7d)"

def requested_cypher : String :=
  "UNWIND $parties AS p MATCH (party:Party \x7bparty_id: p.party_id\x7d), (t:Transaction \x7boffset: p.offset\x7d) CREATE (party)-[:REQUESTED]->(t)"

/-- Step 1: the Transaction node CREATE (cypher.rs lines 92-144). -/
def transaction_statement (tx : LapiTransaction) : CypherQuery :=
  let effective_at := formatOptTimestamp tx.effective_at
  let record_time := formatOptTimestamp tx.record_time
  let traceparent := ((tx.trace_context.bind fun tc => tc.traceparent).getD "")
  let tracestate := ((tx.trace_context.bind fun tc => tc.tracestate).getD "")
  let label := "TX@" ++ toString tx.offset
  { cypher := tx_create_cypher,
    params := [("label", rustDebugString label),
               ("update_id", rustDebugString tx.update_id),
               ("command_id", rustDebugString tx.command_id),
               ("workflow_id", rustDebugString tx.workflow_id),
               ("offset", toString tx.offset),
               ("synchronizer_id", rustDebugString tx.synchronizer_id),
               ("effective_at", rustDebugString effective_at),
               ("record_time", rustDebugString record_time),
               ("traceparent", rustDebugString traceparent),
               ("tracestate", rustDebugString tracestate)],
    queryParams := [("label", .str label),
                    ("update_id", .str tx.update_id),
                    ("command_id", .str tx.command_id),
                    ("workflow_id", .str tx.workflow_id),
                    ("offset", .int tx.offset),
                    ("synchronizer_id", .str tx.synchronizer_id),
                    ("effective_at", .str effective_at),
                    ("record_time", .str record_time),
                    ("traceparent", .str traceparent),
                    ("tracestate", .str tracestate)] }

/-- Step 2, Created branch: the json! element pushed for one Created event
(cypher.rs lines 153-200). -/
def created_event_json (created : CreatedEvent) : Json :=
  let label := match created.template_id with
    | some id => id.entity_name ++ "@" ++ toString created.offset
    | none => "unknown@" ++ toString created.offset
  let template_name := match created.template_id with
    | some id => id.module_name ++ "." ++ id.entity_name
    | none => "unknown"
  let signatories_str :=
    String.intercalate ", " (created.signatories.map fun s => "\x27" ++ s ++ "\x27")
  let created_at := formatOptTimestamp created.created_at
  let create_arguments_json := match created.create_arguments with
    | some args => renderJson (api_record_to_json args)
    | none => "null"
  let create_arguments := match created.create_arguments with
    | some args => serialize_record_raw args
    | none => "null"
  jsonObj [("contract_id", .str created.contract_id),
           ("template_name", .str template_name),
           ("label", .str label),
           ("signatories", .str signatories_str),
           ("offset", .int created.offset),
           ("node_id", .int created.node_id),
           ("created_at", .str created_at),
           ("create_arguments", .str create_arguments),
           ("create_arguments_json", .str create_arguments_json)]

/-- Step 2, Exercised branch: the json! element pushed for one Exercised
event (cypher.rs lines 202-240); the transaction timestamp is passed in. -/
def exercised_event_json (tx_effective_at : Option ProtoTimestamp) (exercised : ExercisedEvent) : Json :=
  let label := exercised.choice ++ "@" ++ toString exercised.offset
  let choice_name := exercised.choice
  let acting_parties_str :=
    String.intercalate ", " (exercised.acting_parties.map fun s => "\x27" ++ s ++ "\x27")
  let transaction_effective_at := formatOptTimestamp tx_effective_at
  let choice_argument_json_str := renderJson (choice_argument_json exercised.choice_argument)
  let choice_argument := match exercised.choice_argument with
    | some arg => serialize_value_raw arg
    | none => "null"
  jsonObj [("label", .str label),
           ("choice_name", .str choice_name),
           ("target_contract_id", .str exercised.contract_id),
           ("acting_parties", .str acting_parties_str),
           ("offset", .int exercised.offset),
           ("node_id", .int exercised.node_id),
           ("consuming", .bool exercised.consuming),
           ("result_contract_ids",
            .str (renderJson (Json.arr ((extract_contract_ids_from_value exercised.exercise_result).map Json.str)))),
           ("last_descendant_node_id", .int exercised.last_descendant_node_id),
           ("transaction_effective_at", .str transaction_effective_at),
           ("choice_argument", .str choice_argument),
           ("choice_argument_json", .str choice_argument_json_str)]

/-- The Created elements collected by the event loop, in event order. -/
def created_events_json (tx : LapiTransaction) : List Json :=
  tx.events.filterMap fun ev =>
    match ev.event with
    | some (.created c) => some (created_event_json c)
    | _ => none

/-- The Exercised elements collected by the event loop, in event order. -/
def exercised_events_json (tx : LapiTransaction) : List Json :=
  tx.events.filterMap fun ev =>
    match ev.event with
    | some (.exercised e) => some (exercised_event_json tx.effective_at e)
    | _ => none

/-- Step 3 edge payload: one json! element per structure edge. -/
def edge_json (e : Int × Int × Int) : Json :=
  jsonObj [("offset", .int e.1), ("parent_id", .int e.2.1), ("child_id", .int e.2.2)]

/-- Step 4: the TARGET relationship elements, one per Exercised event. -/
def target_rels_json (tx : LapiTransaction) : List Json :=
  tx.events.filterMap fun ev =>
    match ev.event with
    | some (.exercised e) =>
        some (jsonObj [("offset", .int e.offset), ("node_id", .int e.node_id),
                       ("target_contract_id", .str e.contract_id)])
    | _ => none

/-- Step 4: the CONSUMES relationship elements, one per consuming Exercised
event. -/
def consumes_rels_json (tx : LapiTransaction) : List Json :=
  tx.events.filterMap fun ev =>
    match ev.event with
    | some (.exercised e) =>
        if e.consuming then
          some (jsonObj [("offset", .int e.offset), ("node_id", .int e.node_id),
                         ("target_contract_id", .str e.contract_id)])
        else none
    | _ => none

/-- Step 5: the node_ids appearing as a child in some structure edge
(the HashSet is only queried for membership, so a list suffices). -/
def child_node_ids (tx : LapiTransaction) : List Int :=
  (extract_edges (structure_markers_from_transaction tx)).map fun e => e.2.2

/-- Step 5: json! elements for root Exercised events; the offset field is
the transaction offset, as in the source. -/
def root_exercised_json (tx : LapiTransaction) : List Json :=
  tx.events.filterMap fun ev =>
    match ev.event with
    | some (.exercised e) =>
        if e.node_id ∈ child_node_ids tx then none
        else some (jsonObj [("offset", .int tx.offset), ("node_id", .int e.node_id)])
    | _ => none

/-- Step 5: json! elements for root Created events. -/
def root_created_json (tx : LapiTransaction) : List Json :=
  tx.events.filterMap fun ev =>
    match ev.event with
    | some (.created c) =>
        if c.node_id ∈ child_node_ids tx then none
        else some (jsonObj [("offset", .int tx.offset), ("node_id", .int c.node_id)])
    | _ => none

/-- Appends an element to a list unless already present: the observable
content of HashSet insert, keeping first-insertion order. -/
def insertIfAbsent (l : List String) (p : String) : List String :=
  if p ∈ l then l else l ++ [p]

/-- Step 6: the requesting-parties set (cypher.rs lines 353-378), as the
set of first insertions in loop order: acting parties of root Exercised
events and signatories of root Created events. -/
def requesting_parties (tx : LapiTransaction) : List String :=
  tx.events.foldl
    (fun acc ev =>
      let acc1 := match ev.event with
        | some (.exercised e) =>
            if e.node_id ∈ child_node_ids tx then acc
            else e.acting_parties.foldl insertIfAbsent acc
        | _ => acc
      match ev.event with
      | some (.created c) =>
          if c.node_id ∈ child_node_ids tx then acc1
          else c.signatories.foldl insertIfAbsent acc1
      | _ => acc1)
    []

/-- One json! element per requesting party (cypher.rs lines 404-407). -/
def party_json (offset : Int) (p : String) : Json :=
  jsonObj [("party_id", .str p), ("offset", .int offset)]

/-- Embeds get_updates_response_to_cypher (cypher.rs lines 81-427).
The requesting_parties HashSet iteration order is an implementation detail
of the randomized std hasher; it is passed in as the explicit parameter
party_iter, applied to the insertion-ordered set. Theorems about this
function constrain party_iter to produce a permutation of its argument,
which is the sole guarantee the HashSet iterator gives. -/
def get_updates_response_to_cypher (party_iter : List String → List String)
    (response : GetUpdatesResponse) : List CypherQuery :=
  match response.update with
  | none => []
  | some (.reassignment _) => []
  | some (.offsetCheckpoint _) => []
  | some (.topologyTransaction _) => []
  | some (.transaction tx) =>
    let created_events := created_events_json tx
    let exercised_events := exercised_events_json tx
    let edges := extract_edges (structure_markers_from_transaction tx)
    let target_rels := target_rels_json tx
    let consumes_rels := consumes_rels_json tx
    let root_exercised := root_exercised_json tx
    let root_created := root_created_json tx
    let parties_set := requesting_parties tx
    let parties := (party_iter parties_set).map (party_json tx.offset)
    [transaction_statement tx]
    ++ (if created_events.isEmpty then []
        else [with_json_param (cypherQueryNew created_batch_cypher) "events" (Json.arr created_events)])
    ++ (if exercised_events.isEmpty then []
        else [with_json_param (cypherQueryNew exercised_batch_cypher) "events" (Json.arr exercised_events)])
    ++ (if edges.isEmpty then []
        else [with_json_param (cypherQueryNew consequence_cypher) "edges" (Json.arr (edges.map edge_json))])
    ++ (if target_rels.isEmpty then []
        else [with_json_param (cypherQueryNew target_cypher) "rels" (Json.arr target_rels)])
    ++ (if consumes_rels.isEmpty then []
        else [with_json_param (cypherQueryNew consumes_cypher) "rels" (Json.arr consumes_rels)])
    ++ (if root_exercised.isEmpty then []
        else [with_json_param (cypherQueryNew action_exercised_cypher) "rels" (Json.arr root_exercised)])
    ++ (if root_created.isEmpty then []
        else [with_json_param (cypherQueryNew action_created_cypher) "rels" (Json.arr root_created)])
    ++ (if parties_set.isEmpty then []
        else [with_json_param (cypherQueryNew party_merge_cypher) "parties" (Json.arr parties),
              with_json_param (cypherQueryNew requested_cypher) "parties" (Json.arr parties)])

/-!
The ACS projection created_event_to_cypher (cypher.rs lines 432-496).
-/

def acs_merge_cypher : String :=
  "MERGE (c:Created \x7b contract_id: $contract_id \x7d) ON CREATE SET c.template_name = $template_name, c.label = $label, c.signatories = $signatories, c.offset = $offset, c.node_id = $node_id, c.created_at = $created_at, c.create_arguments = $create_arguments, c.create_arguments_json = $create_arguments_json, c.from_acs = true"

/-- Embeds created_event_to_cypher: one MERGE-on-contract_id statement with
properties set only ON CREATE, offset fixed to -1 and node_id fixed to 0. -/
def created_event_to_cypher (created : CreatedEvent) : List CypherQuery :=
  let label := match created.template_id with
    | some id => id.entity_name ++ "@ACS"
    | none => "unknown@ACS"
  let template_name := match created.template_id with
    | some id => id.module_name ++ "." ++ id.entity_name
    | none => "unknown"
  let signatories_str :=
    String.intercalate ", " (created.signatories.map fun s => "\x27" ++ s ++ "\x27")
  let created_at := formatOptTimestamp created.created_at
  let create_arguments_json := match created.create_arguments with
    | some args => renderJson (api_record_to_json args)
    | none => "null"
  let create_arguments := match created.create_arguments with
    | some args => serialize_record_raw args
    | none => "null"
  [{ cypher := acs_merge_cypher,
     params := [("contract_id", rustDebugString created.contract_id),
                ("template_name", rustDebugString template_name),
                ("label", rustDebugString label),
                ("signatories", rustDebugString signatories_str),
                ("offset", toString (-1 : Int)),
                ("node_id", toString (0 : Int)),
                ("created_at", rustDebugString created_at),
                ("create_arguments", rustDebugString create_arguments),
                ("create_arguments_json", rustDebugString create_arguments_json)],
     queryParams := [("contract_id", .str created.contract_id),
                     ("template_name", .str template_name),
                     ("label", .str label),
                     ("signatories", .str signatories_str),
                     ("offset", .int (-1)),
                     ("node_id", .int 0),
                     ("created_at", .str created_at),
                     ("create_arguments", .str create_arguments),
                     ("create_arguments_json", .str create_arguments_json)] }]

/-!
Resume offset (ledger-explorer/src/graph.rs lines 12-33). The function runs
the fixed Cypher text MATCH (n) WHERE n.offset IS NOT NULL AND n.offset >= 0
RETURN max(n.offset); its semantics over a graph whose nodes carry an
optional integer offset property is the maximum over the present,
non-negative offsets, null (none) when there is no such node.
-/
def get_last_processed_offset (node_offsets : List (Option Int)) : Option Int :=
  ((node_offsets.filterMap id).filter fun o => decide (0 ≤ o)).max?

/-!
Graph-write semantics for Created nodes. A Created node in the store is
identified here by its contract_id, its property list, and the from_acs
flag. The two write shapes the projection emits for Created nodes are:
the ACS statement (MERGE on contract_id, properties set only ON CREATE,
from_acs = true), and the streaming batch statement (plain CREATE, which in
Cypher always creates a new node). No uniqueness constraint is installed by
ensure_indexes (sync.rs lines 50-59 create plain indexes only).
-/

structure CreatedGraphNode where
  contract_id : String
  properties : List (String × BoltParam)
  from_acs : Bool
deriving Repr, BEq

/-- Models executing the MERGE statement of created_event_to_cypher: when a
Created node with the contract_id already exists the statement matches it
and the ON CREATE SET clause does not run, leaving the graph unchanged;
otherwise a new node is created with the statement parameters and
from_acs = true. -/
def apply_acs_merge (g : List CreatedGraphNode) (created : CreatedEvent) : List CreatedGraphNode :=
  if g.any fun n => n.contract_id == created.contract_id then g
  else g ++ [{ contract_id := created.contract_id,
               properties := ((created_event_to_cypher created).headD (cypherQueryNew "")).queryParams,
               from_acs := true }]

/-- Models executing the streaming UNWIND CREATE of
get_updates_response_to_cypher for one Created element: CREATE
unconditionally adds a fresh node carrying the element payload. -/
def apply_stream_create (g : List CreatedGraphNode) (created : CreatedEvent) : List CreatedGraphNode :=
  g ++ [{ contract_id := created.contract_id,
          properties := [("e", .json (created_event_json created))],
          from_acs := false }]

/-!
Token manager (client/src/jwt.rs lines 332-492). Instants are modelled as
absolute Nat seconds; the renewal threshold, an f64 multiplied into a
Duration, is modelled as the fraction renewal_num / renewal_den (the default
0.8 is 4 / 5). The outcome of the configured token source (an HTTP exchange
for the Keycloak variant) is passed in as a value.
-/

structure TokenState where
  token : String
  obtained_at : Nat
  expires_in_secs : Nat
deriving Repr, BEq, DecidableEq

/-- Embeds TokenManager::should_refresh (jwt.rs lines 399-415): true when
elapsed ≥ renewal_threshold × lifetime. -/
def should_refresh (renewal_num renewal_den : Nat) (now : Nat) (st : TokenState) : Bool :=
  decide (renewal_num * st.expires_in_secs ≤ renewal_den * (now - st.obtained_at))

def u64_max : Nat := 18446744073709551615

structure KeycloakConfig where
  client_id : String
  token_endpoint : String
deriving Repr, BEq, DecidableEq

inductive TokenSource where
  | staticToken (t : String) : TokenSource
  | keycloak (config : KeycloakConfig) : TokenSource
  | fakeJwt (user_id : String) : TokenSource
deriving Repr, BEq

/-- The JSON body of an identity-provider token response, with every field
optional as received on the wire. -/
structure TokenResponseJson where
  access_token : Option String
  expires_in : Option Nat
  token_type : Option String
deriving Repr, BEq, DecidableEq

/-- Models serde deserialization into KeycloakTokenResponseWithExpiry
(jwt.rs lines 193-199): access_token and expires_in are required fields, so
a body missing either fails to parse. -/
def parse_token_response_with_expiry (j : TokenResponseJson) : Except String (String × Nat) :=
  match j.access_token, j.expires_in with
  | some t, some e => .ok (t, e)
  | _, _ => .error "Failed to parse Keycloak token response"

/-- Models serde deserialization into KeycloakTokenResponse (jwt.rs lines
117-124): expires_in and token_type are Option fields, only access_token is
required. -/
def parse_token_response_plain (j : TokenResponseJson) : Except String String :=
  match j.access_token with
  | some t => .ok t
  | none => .error "Failed to parse Keycloak token response"

/-- Embeds keycloak_jwt_with_expiry (jwt.rs lines 204-260) given the HTTP
outcome: a network error or non-success status is the error case of the
argument, a success body goes through the required-field parse. -/
def keycloak_jwt_with_expiry (http : Except String TokenResponseJson) : Except String (String × Nat) :=
  match http with
  | .error e => .error e
  | .ok j => parse_token_response_with_expiry j

/-- Models fake_jwt_for_user (jwt.rs lines 65-88): an unsigned token derived
from the user id and the 24-hour expiry stamp taken from the clock; the
token text is opaque to every claim, only its determinism in (user_id, now)
matters. -/
def fake_jwt_for_user (user_id : String) (now : Nat) : String :=
  "header." ++ user_id ++ "." ++ toString (now + 24 * 60 * 60)

/-- The token/lifetime pair produced by the source dispatch inside
refresh_token (jwt.rs lines 430-443). -/
def token_source_fetch (source : TokenSource) (http : Except String TokenResponseJson)
    (now : Nat) : Except String (String × Nat) :=
  match source with
  | .staticToken t => .ok (t, u64_max)
  | .keycloak _ => keycloak_jwt_with_expiry http
  | .fakeJwt user_id => .ok (fake_jwt_for_user user_id now, 24 * 60 * 60)

/-- Embeds TokenManager::refresh_token (jwt.rs lines 418-453): double-check
under the lock, then fetch; the state is written only after a successful
fetch, so a failed fetch leaves it unchanged and propagates the error. -/
def refresh_token (renewal_num renewal_den : Nat) (source : TokenSource)
    (http : Except String TokenResponseJson) (now : Nat)
    (state : Option TokenState) : Except String String × Option TokenState :=
  match state with
  | some ts =>
    if ¬ should_refresh renewal_num renewal_den now ts then (.ok ts.token, some ts)
    else
      match token_source_fetch source http now with
      | .ok (t, e) => (.ok t, some { token := t, obtained_at := now, expires_in_secs := e })
      | .error er => (.error er, some ts)
  | none =>
    match token_source_fetch source http now with
    | .ok (t, e) => (.ok t, some { token := t, obtained_at := now, expires_in_secs := e })
    | .error er => (.error er, none)

/-- Embeds TokenManager::get_token (jwt.rs lines 383-396): fast path returns
the cached token when fresh, otherwise delegates to refresh_token. -/
def get_token (renewal_num renewal_den : Nat) (source : TokenSource)
    (http : Except String TokenResponseJson) (now : Nat)
    (state : Option TokenState) : Except String String × Option TokenState :=
  match state with
  | some ts =>
    if ¬ should_refresh renewal_num renewal_den now ts then (.ok ts.token, some ts)
    else refresh_token renewal_num renewal_den source http now state
  | none => refresh_token renewal_num renewal_den source http now none

/-!
Normal-mode begin-offset decision of run_resilient_sync (sync.rs lines
333-376). The three external consultations are passed in as values: the
graph max-offset query outcome, the configured starting_offset, and the
pruning-offset query outcome.
-/
def begin_offset_normal (graph_max : Except String (Option Int))
    (starting_offset : Option Int) (pruning : Except String Int) : Int :=
  match graph_max with
  | .ok (some offset) => offset
  | .ok none =>
    match starting_offset with
    | some configured => configured
    | none =>
      match pruning with
      | .ok p => p
      | .error _ => 0
  | .error _ =>
    match pruning with
    | .ok p => p
    | .error _ => 0

/-- Follows the wording of spec section 4.2 steps 2-5: graph maximum if
present, else configured starting offset if present, else pruning offset if
available, else 0. Stated over already-observed optional values; used to
compare the source decision against the spec priority order. -/
def offset_oracle_spec_priority (graph_max starting_offset pruning : Option Int) : Int :=
  match graph_max with
  | some o => o
  | none =>
    match starting_offset with
    | some c => c
    | none =>
      match pruning with
      | some p => p
      | none => 0

/-- Forgets the error message of a pruning-offset query outcome, keeping
availability only. -/
def except_to_option (r : Except String Int) : Option Int :=
  match r with
  | .ok p => some p
  | .error _ => none

/-!
Specification-side notions for the structure-edge algorithm: the ancestor
relation of the range-tree invariant (spec section 3), the immediate-parent
relation derived from it, and the invariant itself.
-/

/-- Marker a is a proper ancestor of marker b: the node_id of b lies inside
the half-open descendant range of a. With unique node_ids this is the
ancestor relation of the spec restricted to distinct events. -/
def ProperAncestor (a b : StructureMarker) : Prop :=
  a.node_id < b.node_id ∧ b.node_id ≤ a.last_descendant_node_id

instance (a b : StructureMarker) : Decidable (ProperAncestor a b) :=
  inferInstanceAs (Decidable (_ ∧ _))

/-- The range-tree invariant on a marker list: node_ids are unique, every
range is well-formed, and ranges are laminar (a node falling inside a range
brings its whole range along). -/
def RangeTreeInv (ms : List StructureMarker) : Prop :=
  (ms.map fun m => m.node_id).Nodup
  ∧ (∀ m ∈ ms, m.node_id ≤ m.last_descendant_node_id)
  ∧ (∀ a ∈ ms, ∀ b ∈ ms, a.node_id < b.node_id →
      b.node_id ≤ a.last_descendant_node_id →
      b.last_descendant_node_id ≤ a.last_descendant_node_id)

instance (ms : List StructureMarker) : Decidable (RangeTreeInv ms) :=
  inferInstanceAs (Decidable ((ms.map fun m : StructureMarker => m.node_id).Nodup
    ∧ (∀ m ∈ ms, m.node_id ≤ m.last_descendant_node_id)
    ∧ (∀ a ∈ ms, ∀ b ∈ ms, a.node_id < b.node_id →
        b.node_id ≤ a.last_descendant_node_id →
        b.last_descendant_node_id ≤ a.last_descendant_node_id)))

/-- p is the immediate parent of c: a proper ancestor with no marker of the
list strictly between them. -/
def ImmediateParent (ms : List StructureMarker) (p c : StructureMarker) : Prop :=
  p ∈ ms ∧ c ∈ ms ∧ ProperAncestor p c ∧
  ∀ q ∈ ms, ¬ (ProperAncestor p q ∧ ProperAncestor q c)

instance (ms : List StructureMarker) (p c : StructureMarker) :
    Decidable (ImmediateParent ms p c) :=
  inferInstanceAs (Decidable (p ∈ ms ∧ c ∈ ms ∧ ProperAncestor p c ∧
    ∀ q ∈ ms, ¬ (ProperAncestor p q ∧ ProperAncestor q c)))

/-- The last element of a strictly node_id-sorted marker list bounds every
element. -/
theorem le_getLast_nid {l : List StructureMarker} {L : StructureMarker}
    (hp : l.Pairwise fun a b => a.node_id < b.node_id) (hL : l.getLast? = some L) :
    ∀ b ∈ l, b.node_id ≤ L.node_id := by
  induction l with
  | nil => simp at hL
  | cons x xs ih =>
    cases xs with
    | nil =>
      simp at hL
      intro b hb
      simp at hb
      simp [hb, hL]
    | cons y ys =>
      rw [List.getLast?_cons_cons] at hL
      have hLmem : L ∈ y :: ys := List.mem_of_mem_getLast? hL
      intro b hb
      rcases List.mem_cons.mp hb with rfl | hb2
      · exact le_of_lt ((List.pairwise_cons.mp hp).1 L hLmem)
      · exact ih (List.pairwise_cons.mp hp).2 hL b hb2

/-- Dropping while a predicate fails equals filtering, on a list where the
predicate is inherited forward. -/
theorem dropWhile_not_eq_filter {α : Type} (p : α → Bool) :
    ∀ l : List α, l.Pairwise (fun x y => p x = true → p y = true) →
      l.dropWhile (fun a => ! p a) = l.filter p := by
  intro l h
  induction l with
  | nil => rfl
  | cons x xs ih =>
    rcases List.pairwise_cons.mp h with ⟨hx, hxs⟩
    by_cases hp : p x = true
    · simp [List.dropWhile_cons, List.filter_cons, hp,
            List.filter_eq_self.mpr fun a ha => hx a ha hp]
    · simp only [Bool.not_eq_true] at hp
      simp [List.dropWhile_cons, List.filter_cons, hp, ih hxs]

/-- The stack contents after the loop has processed the sorted prefix done:
exactly the processed markers whose descendant range reaches the node_id of
the most recently processed marker, innermost on top. -/
def stackInv (done : List StructureMarker) : List StructureMarker :=
  match done.getLast? with
  | none => []
  | some L => (done.filter fun a => decide (L.node_id ≤ a.last_descendant_node_id)).reverse

/-- The parent the traversal assigns to m given the processed prefix: the
last processed marker whose descendant range still covers m. -/
def parentIn (prev : List StructureMarker) (m : StructureMarker) : Option StructureMarker :=
  (prev.filter fun a => decide (m.node_id ≤ a.last_descendant_node_id)).getLast?

/-- Recursive specification of the edge list: each marker contributes the
edge to its parentIn over the prefix of already processed markers. -/
def edgesSpec (prev : List StructureMarker) : List StructureMarker → List (Int × Int × Int)
  | [] => []
  | m :: rest =>
    (match parentIn prev m with
     | some p => [(m.offset, p.node_id, m.node_id)]
     | none => []) ++ edgesSpec (prev ++ [m]) rest

/-- Popping the stack for the next marker m keeps exactly the processed
markers whose range covers m. -/
theorem popStack_stackInv (done : List StructureMarker) (m : StructureMarker)
    (hsorted : (done ++ [m]).Pairwise fun a b => a.node_id < b.node_id)
    (hlam : ∀ a ∈ done, ∀ b ∈ done, a.node_id < b.node_id →
      b.node_id ≤ a.last_descendant_node_id →
      b.last_descendant_node_id ≤ a.last_descendant_node_id) :
    popStack m.node_id (stackInv done)
      = (done.filter fun a => decide (m.node_id ≤ a.last_descendant_node_id)).reverse := by
  cases hL : done.getLast? with
  | none =>
    have hnil : done = [] := List.getLast?_eq_none_iff.mp hL
    subst hnil
    rfl
  | some L =>
    have hLmem : L ∈ done := List.mem_of_mem_getLast? hL
    have hpair : done.Pairwise fun a b => a.node_id < b.node_id :=
      (List.pairwise_append.mp hsorted).1
    have hLm : ∀ a ∈ done, a.node_id < m.node_id := fun a ha =>
      (List.pairwise_append.mp hsorted).2.2 a ha m (by simp)
    have hbound := le_getLast_nid hpair hL
    unfold popStack stackInv
    rw [hL]
    have hfun : (fun top : StructureMarker => decide (top.last_descendant_node_id < m.node_id))
        = fun a : StructureMarker => ! decide (m.node_id ≤ a.last_descendant_node_id) := by
      funext t
      by_cases h : m.node_id ≤ t.last_descendant_node_id <;> simp [h] <;> omega
    rw [hfun]
    rw [dropWhile_not_eq_filter _ _ ?pw]
    · rw [List.filter_reverse]
      congr 1
      rw [List.filter_filter]
      refine List.filter_congr fun a ha => ?_
      by_cases hpa : m.node_id ≤ a.last_descendant_node_id
      · have hcl : L.node_id ≤ a.last_descendant_node_id :=
          le_trans (le_of_lt (hLm L hLmem)) hpa
        simp [hpa, hcl]
      · simp [hpa]
    case pw =>
      rw [List.pairwise_reverse]
      refine List.Pairwise.imp_of_mem ?_ (hpair.filter _)
      intro a b hamem hbmem hab hpb
      have hamem2 := List.mem_filter.mp hamem
      have hbmem2 := List.mem_filter.mp hbmem
      have hca : L.node_id ≤ a.last_descendant_node_id := by
        have := hamem2.2; simpa using this
      have hbn : b.node_id ≤ L.node_id := hbound b hbmem2.1
      have hanc : b.node_id ≤ a.last_descendant_node_id := le_trans hbn hca
      have hld : b.last_descendant_node_id ≤ a.last_descendant_node_id :=
        hlam a hamem2.1 b hbmem2.1 hab hanc
      have hpb2 : m.node_id ≤ b.last_descendant_node_id := by simpa using hpb
      simp
      omega

/-- The traversal over a strictly sorted, well-formed, laminar marker list
computes exactly the edgesSpec edges. -/
theorem extractEdgesLoop_eq_edgesSpec :
    ∀ (todo done : List StructureMarker),
      ((done ++ todo).Pairwise fun a b => a.node_id < b.node_id) →
      (∀ x ∈ done ++ todo, x.node_id ≤ x.last_descendant_node_id) →
      (∀ a ∈ done ++ todo, ∀ b ∈ done ++ todo, a.node_id < b.node_id →
        b.node_id ≤ a.last_descendant_node_id →
        b.last_descendant_node_id ≤ a.last_descendant_node_id) →
      extractEdgesLoop (stackInv done) todo = edgesSpec done todo
  | [], _, _, _, _ => rfl
  | m :: rest, done, hsorted, hwf, hlam => by
    have hmm : m ∈ done ++ m :: rest := by simp
    have hsorted1 : (done ++ [m]).Pairwise fun a b => a.node_id < b.node_id := by
      rcases List.pairwise_append.mp hsorted with ⟨hd, hmr, hcross⟩
      refine List.pairwise_append.mpr ⟨hd, by simp, ?_⟩
      intro a ha b hb
      rw [List.mem_singleton] at hb
      rw [hb]
      exact hcross a ha m (by simp)
    have hlam1 : ∀ a ∈ done, ∀ b ∈ done, a.node_id < b.node_id →
        b.node_id ≤ a.last_descendant_node_id →
        b.last_descendant_node_id ≤ a.last_descendant_node_id := by
      intro a ha b hb
      exact hlam a (by simp [ha]) b (by simp [hb])
    have hpop := popStack_stackInv done m hsorted1 hlam1
    have hstack : m :: (done.filter fun a => decide (m.node_id ≤ a.last_descendant_node_id)).reverse
        = stackInv (done ++ [m]) := by
      unfold stackInv
      rw [List.getLast?_concat]
      show m :: (done.filter fun a => decide (m.node_id ≤ a.last_descendant_node_id)).reverse
          = ((done ++ [m]).filter fun a => decide (m.node_id ≤ a.last_descendant_node_id)).reverse
      rw [List.filter_append]
      have hm : (decide (m.node_id ≤ m.last_descendant_node_id)) = true := by
        simpa using hwf m hmm
      simp [hm]
    have hrec : extractEdgesLoop (stackInv (done ++ [m])) rest = edgesSpec (done ++ [m]) rest := by
      refine extractEdgesLoop_eq_edgesSpec rest (done ++ [m]) ?_ ?_ ?_
      · rw [List.append_assoc, List.singleton_append]; exact hsorted
      · rw [List.append_assoc, List.singleton_append]; exact hwf
      · rw [List.append_assoc, List.singleton_append]; exact hlam
    show (match (popStack m.node_id (stackInv done)).head? with
          | some parent => [(m.offset, parent.node_id, m.node_id)]
          | none => []) ++ extractEdgesLoop (m :: popStack m.node_id (stackInv done)) rest
        = edgesSpec done (m :: rest)
    rw [hpop, hstack, hrec]
    rw [List.head?_reverse]
    rfl

/-- The sort used by extract_edges produces a strictly sorted list when
node_ids are unique. -/
theorem insertionSort_strict_sorted (ms : List StructureMarker)
    (hnodup : (ms.map fun m : StructureMarker => m.node_id).Nodup) :
    (ms.insertionSort markerLe).Pairwise fun a b => a.node_id < b.node_id := by
  have hperm := List.perm_insertionSort markerLe ms
  have hle : (ms.insertionSort markerLe).Pairwise markerLe :=
    List.sorted_insertionSort markerLe ms
  have hnodup2 : ((ms.insertionSort markerLe).map
      fun m : StructureMarker => m.node_id).Nodup := by
    refine (List.Perm.nodup_iff ?_).mpr hnodup
    exact hperm.map _
  have hne := List.pairwise_map.mp hnodup2
  refine (hle.and hne).imp ?_
  intro a b hab
  rcases hab with ⟨h1, h2⟩
  unfold markerLe at h1
  omega

/-- extract_edges equals the recursive specification over the sorted list. -/
theorem extract_edges_eq_edgesSpec (ms : List StructureMarker) (hinv : RangeTreeInv ms) :
    extract_edges ms = edgesSpec [] (ms.insertionSort markerLe) := by
  obtain ⟨hnodup, hwf, hlam⟩ := hinv
  have hperm := List.perm_insertionSort markerLe ms
  have hmem : ∀ a : StructureMarker,
      a ∈ ms.insertionSort markerLe ↔ a ∈ ms :=
    fun a => hperm.mem_iff
  refine extractEdgesLoop_eq_edgesSpec _ [] ?_ ?_ ?_
  · rw [List.nil_append]
    exact insertionSort_strict_sorted ms hnodup
  · rw [List.nil_append]
    intro x hx
    exact hwf x ((hmem x).mp hx)
  · rw [List.nil_append]
    intro a ha b hb
    exact hlam a ((hmem a).mp ha) b ((hmem b).mp hb)

/-- Membership in the edge specification: an edge arises exactly from a
marker of the list together with its parentIn over its prefix. -/
theorem mem_edgesSpec :
    ∀ (todo prev : List StructureMarker) (e : Int × Int × Int),
      e ∈ edgesSpec prev todo ↔
        ∃ pre C post, todo = pre ++ C :: post ∧
          ∃ P, parentIn (prev ++ pre) C = some P ∧ e = (C.offset, P.node_id, C.node_id)
  | [], prev, e => by
    simp only [edgesSpec, List.not_mem_nil, false_iff]
    rintro ⟨pre, C, post, habs, -⟩
    exact (List.append_ne_nil_of_right_ne_nil pre (List.cons_ne_nil C post)) habs.symm
  | m :: rest, prev, e => by
    rw [edgesSpec, List.mem_append]
    constructor
    · rintro (h1 | h2)
      · cases hP : parentIn prev m with
        | none => rw [hP] at h1; simp at h1
        | some P =>
          rw [hP] at h1
          simp only [List.mem_singleton] at h1
          exact ⟨[], m, rest, rfl, P, by simpa using hP, h1⟩
      · obtain ⟨pre, C, post, hsplit, P, hPar, he⟩ := (mem_edgesSpec rest (prev ++ [m]) e).mp h2
        refine ⟨m :: pre, C, post, by rw [hsplit, List.cons_append], P, ?_, he⟩
        rwa [List.append_assoc, List.singleton_append] at hPar
    · rintro ⟨pre, C, post, hsplit, P, hPar, he⟩
      cases pre with
      | nil =>
        simp only [List.nil_append] at hsplit
        injection hsplit with hmC hrp
        subst hmC
        subst hrp
        left
        rw [List.append_nil] at hPar
        rw [hPar]
        simpa using he
      | cons a pre2 =>
        have hm : m = a := by
          have := congrArg List.head? hsplit
          simpa using this
        have hrest : rest = pre2 ++ C :: post := by
          have := congrArg List.tail hsplit
          simpa using this
        right
        refine (mem_edgesSpec rest (prev ++ [m]) e).mpr ⟨pre2, C, post, hrest, P, ?_, he⟩
        rw [hm, List.append_assoc, List.singleton_append]
        exact hPar

/-- The proper ancestors of C inside a list, in list order. -/
def ancestorsIn (s : List StructureMarker) (C : StructureMarker) : List StructureMarker :=
  s.filter fun a => decide (ProperAncestor a C)

/-- Over a strictly sorted split s = pre ++ C :: post, the prefix filter used
by parentIn is exactly the ancestor filter over the whole list. -/
theorem parentIn_split_eq_ancestors (pre post : List StructureMarker) (C : StructureMarker)
    (hsorted : (pre ++ C :: post).Pairwise fun a b => a.node_id < b.node_id) :
    pre.filter (fun a => decide (C.node_id ≤ a.last_descendant_node_id))
      = ancestorsIn (pre ++ C :: post) C := by
  rcases List.pairwise_append.mp hsorted with ⟨hpre, hcp, hcross⟩
  have h1 : ∀ a ∈ pre, a.node_id < C.node_id := fun a ha => hcross a ha C (by simp)
  unfold ancestorsIn
  rw [List.filter_append]
  have hpre2 : pre.filter (fun a => decide (C.node_id ≤ a.last_descendant_node_id))
      = pre.filter (fun a => decide (ProperAncestor a C)) := by
    refine List.filter_congr fun a ha => ?_
    simp only [decide_eq_decide]
    unfold ProperAncestor
    constructor
    · intro h
      exact ⟨h1 a ha, h⟩
    · rintro ⟨-, h⟩
      exact h
  have hrest : (C :: post).filter (fun a => decide (ProperAncestor a C)) = [] := by
    rw [List.filter_eq_nil_iff]
    intro a ha
    rcases List.mem_cons.mp ha with rfl | hpost
    · simp only [decide_eq_true_eq]
      unfold ProperAncestor
      omega
    · have : C.node_id < a.node_id := (List.pairwise_cons.mp hcp).1 a hpost
      simp only [decide_eq_true_eq]
      unfold ProperAncestor
      omega
  rw [hpre2, hrest, List.append_nil]

/-- The parent the traversal selects is exactly the immediate parent of the
range definition: the last (maximal node_id) proper ancestor. -/
theorem getLast_ancestors_iff (ms : List StructureMarker) (hinv : RangeTreeInv ms)
    (s : List StructureMarker) (hperm : s.Perm ms)
    (hsorted : s.Pairwise fun a b => a.node_id < b.node_id)
    (C P : StructureMarker) (hC : C ∈ ms) :
    (ancestorsIn s C).getLast? = some P ↔ ImmediateParent ms P C := by
  obtain ⟨hnodup, hwf, hlam⟩ := hinv
  have hmemiff : ∀ a : StructureMarker, a ∈ s ↔ a ∈ ms := fun a => hperm.mem_iff
  have hfilter_pairwise : (ancestorsIn s C).Pairwise fun a b => a.node_id < b.node_id :=
    hsorted.filter _
  have hmem_anc : ∀ a : StructureMarker,
      a ∈ ancestorsIn s C ↔ a ∈ ms ∧ ProperAncestor a C := by
    intro a
    unfold ancestorsIn
    rw [List.mem_filter]
    simp only [decide_eq_true_eq]
    rw [hmemiff]
  constructor
  · intro hP
    have hPanc : P ∈ ancestorsIn s C := List.mem_of_mem_getLast? hP
    have hmax := le_getLast_nid hfilter_pairwise hP
    obtain ⟨hPm, hPA⟩ := (hmem_anc P).mp hPanc
    refine ⟨hPm, hC, hPA, ?_⟩
    rintro q hq ⟨hPq, hqC⟩
    have hqanc : q ∈ ancestorsIn s C := (hmem_anc q).mpr ⟨hq, hqC⟩
    have := hmax q hqanc
    have := hPq.1
    omega
  · rintro ⟨hPm, -, hPA, hnomid⟩
    have hPanc : P ∈ ancestorsIn s C := (hmem_anc P).mpr ⟨hPm, hPA⟩
    have hne : ancestorsIn s C ≠ [] := List.ne_nil_of_mem hPanc
    have hsome : (ancestorsIn s C).getLast?.isSome := List.getLast?_isSome.mpr hne
    obtain ⟨P2, hP2⟩ := Option.isSome_iff_exists.mp hsome
    have hP2anc : P2 ∈ ancestorsIn s C := List.mem_of_mem_getLast? hP2
    have hmax := le_getLast_nid hfilter_pairwise hP2
    obtain ⟨hP2m, hP2A⟩ := (hmem_anc P2).mp hP2anc
    have hle : P.node_id ≤ P2.node_id := hmax P hPanc
    have heq : P2 = P := by
      by_cases hlt : P.node_id < P2.node_id
      · exfalso
        refine hnomid P2 hP2m ⟨⟨hlt, ?_⟩, hP2A⟩
        have h1 := hP2A.1
        have h2 := hPA.2
        omega
      · have hnid : P2.node_id = P.node_id := by omega
        exact List.inj_on_of_nodup_map hnodup hP2m hPm hnid
    rw [hP2, heq]

/-- The child node_ids of the specified edges form a sublist of the node_ids
of the traversed markers. -/
theorem edgesSpec_child_sublist :
    ∀ (todo prev : List StructureMarker),
      List.Sublist ((edgesSpec prev todo).map fun e => e.2.2)
        (todo.map fun m : StructureMarker => m.node_id)
  | [], _ => by simp [edgesSpec]
  | m :: rest, prev => by
    rw [edgesSpec, List.map_cons]
    cases hP : parentIn prev m with
    | none =>
      simp only [List.nil_append]
      exact List.Sublist.cons _ (edgesSpec_child_sublist rest (prev ++ [m]))
    | some P =>
      simp only [List.singleton_append, List.map_cons]
      exact List.Sublist.cons₂ _ (edgesSpec_child_sublist rest (prev ++ [m]))

/-- Characterization of extract_edges under the range-tree invariant: the
edges are exactly the immediate-parent pairs, and each non-root marker
receives exactly one parent edge. -/
theorem extract_edges_characterization (ms : List StructureMarker) (hinv : RangeTreeInv ms) :
    (∀ e : Int × Int × Int,
       e ∈ extract_edges ms ↔
       ∃ P C, ImmediateParent ms P C ∧ e = (C.offset, P.node_id, C.node_id))
    ∧ (∀ C ∈ ms, (∃ A ∈ ms, ProperAncestor A C) →
        ((extract_edges ms).filter fun e => e.2.2 == C.node_id).length = 1) := by
  set s := ms.insertionSort markerLe with hs
  have hperm : s.Perm ms := List.perm_insertionSort markerLe ms
  have hsService : (s.map fun m : StructureMarker => m.node_id).Nodup := by
    refine (List.Perm.nodup_iff ?_).mpr hinv.1
    exact hperm.map _
  have hsorted : s.Pairwise fun a b => a.node_id < b.node_id :=
    insertionSort_strict_sorted ms hinv.1
  have heq : extract_edges ms = edgesSpec [] s := extract_edges_eq_edgesSpec ms hinv
  have hmemiff : ∀ a : StructureMarker, a ∈ s ↔ a ∈ ms := fun a => hperm.mem_iff
  have hiff : ∀ e : Int × Int × Int,
      e ∈ extract_edges ms ↔
      ∃ P C, ImmediateParent ms P C ∧ e = (C.offset, P.node_id, C.node_id) := by
    intro e
    rw [heq, mem_edgesSpec]
    constructor
    · rintro ⟨pre, C, post, hsplit, P, hPar, he⟩
      have hCs : C ∈ s := by rw [hsplit]; simp
      have hsorted2 : (pre ++ C :: post).Pairwise fun a b => a.node_id < b.node_id := by
        rwa [hsplit] at hsorted
      rw [List.nil_append] at hPar
      unfold parentIn at hPar
      rw [parentIn_split_eq_ancestors pre post C hsorted2, ← hsplit] at hPar
      exact ⟨P, C, (getLast_ancestors_iff ms hinv s hperm hsorted C P
        ((hmemiff C).mp hCs)).mp hPar, he⟩
    · rintro ⟨P, C, hImm, he⟩
      have hCs : C ∈ s := (hmemiff C).mpr hImm.2.1
      obtain ⟨pre, post, hsplit⟩ := List.append_of_mem hCs
      have hsorted2 : (pre ++ C :: post).Pairwise fun a b => a.node_id < b.node_id := by
        rwa [hsplit] at hsorted
      refine ⟨pre, C, post, hsplit, P, ?_, he⟩
      rw [List.nil_append]
      unfold parentIn
      rw [parentIn_split_eq_ancestors pre post C hsorted2, ← hsplit]
      exact (getLast_ancestors_iff ms hinv s hperm hsorted C P hImm.2.1).mpr hImm
  refine ⟨hiff, ?_⟩
  intro C hC hroot
  obtain ⟨A, hA, hAanc⟩ := hroot
  have hAanc2 : A ∈ ancestorsIn s C := by
    unfold ancestorsIn
    rw [List.mem_filter]
    exact ⟨(hmemiff A).mpr hA, by simpa using hAanc⟩
  have hne : ancestorsIn s C ≠ [] := List.ne_nil_of_mem hAanc2
  have hsome : (ancestorsIn s C).getLast?.isSome := List.getLast?_isSome.mpr hne
  obtain ⟨P, hP⟩ := Option.isSome_iff_exists.mp hsome
  have hImm : ImmediateParent ms P C :=
    (getLast_ancestors_iff ms hinv s hperm hsorted C P hC).mp hP
  have hedge : (C.offset, P.node_id, C.node_id) ∈ extract_edges ms :=
    (hiff _).mpr ⟨P, C, hImm, rfl⟩
  have hmem_child : C.node_id ∈ (extract_edges ms).map (fun e : Int × Int × Int => e.2.2) :=
    List.mem_map_of_mem _ hedge
  have hchild_nodup : ((extract_edges ms).map fun e : Int × Int × Int => e.2.2).Nodup := by
    rw [heq]
    exact (edgesSpec_child_sublist s []).nodup hsService
  have hle : ((extract_edges ms).map fun e : Int × Int × Int => e.2.2).count C.node_id ≤ 1 :=
    List.nodup_iff_count_le_one.mp hchild_nodup _
  have hge : 0 < ((extract_edges ms).map fun e : Int × Int × Int => e.2.2).count C.node_id :=
    List.count_pos_iff.mpr hmem_child
  calc ((extract_edges ms).filter fun e => e.2.2 == C.node_id).length
      = (extract_edges ms).countP (fun e => e.2.2 == C.node_id) :=
        (List.countP_eq_length_filter _ _).symm
    _ = ((extract_edges ms).map fun e : Int × Int × Int => e.2.2).countP
          (fun x => x == C.node_id) := by
        rw [List.countP_map]
        rfl
    _ = ((extract_edges ms).map fun e : Int × Int × Int => e.2.2).count C.node_id :=
        (List.count_eq_countP _ _).symm
    _ = 1 := by omega

/-- C1: for every transaction whose structure markers satisfy the range-tree
invariant, extract_edges over structure_markers_from_transaction contains a
pair (p, c) exactly when the marker with node_id p is the immediate parent
of the marker with node_id c under the range ancestor definition, and every
non-root marker receives exactly one parent edge. -/
theorem structure_edges_recover_immediate_parents (tx : LapiTransaction)
    (hinv : RangeTreeInv (structure_markers_from_transaction tx)) :
    (∀ p c : Int,
      (∃ o, (o, p, c) ∈ extract_edges (structure_markers_from_transaction tx)) ↔
      (∃ P C, ImmediateParent (structure_markers_from_transaction tx) P C ∧
        P.node_id = p ∧ C.node_id = c))
    ∧ (∀ C ∈ structure_markers_from_transaction tx,
        (∃ A ∈ structure_markers_from_transaction tx, ProperAncestor A C) →
        ((extract_edges (structure_markers_from_transaction tx)).filter
          fun e => e.2.2 == C.node_id).length = 1) := by
  obtain ⟨hiff, hcount⟩ := extract_edges_characterization _ hinv
  refine ⟨?_, hcount⟩
  intro p c
  constructor
  · rintro ⟨o, ho⟩
    obtain ⟨P, C, hImm, heq⟩ := (hiff (o, p, c)).mp ho
    rw [Prod.mk.injEq, Prod.mk.injEq] at heq
    exact ⟨P, C, hImm, heq.2.1.symm, heq.2.2.symm⟩
  · rintro ⟨P, C, hImm, rfl, rfl⟩
    exact ⟨C.offset, (hiff _).mpr ⟨P, C, hImm, rfl⟩⟩

/-- Concrete transaction for exercising the edge theorem: one consuming
Exercised root covering one nested Created. -/
def c1_witness_tx : LapiTransaction :=
  { update_id := "u1", command_id := "c1", workflow_id := "", effective_at := none,
    events :=
      [{ event := some (.exercised
           { offset := 7, node_id := 0, contract_id := "c_old", choice := "Transfer",
             choice_argument := none, acting_parties := ["Alice"], consuming := true,
             exercise_result := none, last_descendant_node_id := 1 }) },
       { event := some (.created
           { offset := 7, node_id := 1, contract_id := "c_new", template_id := none,
             create_arguments := none, created_at := none,
             signatories := ["Alice", "Bob"] }) }],
    offset := 7, synchronizer_id := "sync", trace_context := none, record_time := none }

/-- Witness for the edge theorem at a concrete transaction: the invariant
holds and the traversal emits the parent edge from node 0 to node 1. -/
theorem structure_edges_recover_immediate_parents_witness :
    ∃ o, (o, (0 : Int), (1 : Int)) ∈
      extract_edges (structure_markers_from_transaction c1_witness_tx) := by
  have h := structure_edges_recover_immediate_parents c1_witness_tx (by decide)
  refine (h.1 0 1).mpr ?_
  exact ⟨⟨7, 0, 1⟩, ⟨7, 1, 1⟩, by decide, rfl, rfl⟩

/-- C4: the ACS loader statement is a single MERGE on contract_id carrying
offset -1 and node_id 0 with from_acs set true ON CREATE, and a node with
offset -1 never changes the resume point computed by
get_last_processed_offset, which ranges over offsets that are at least 0. -/
theorem acs_nodes_excluded_from_resume (c : CreatedEvent) (offs : List (Option Int)) :
    (created_event_to_cypher c).length = 1
    ∧ ((created_event_to_cypher c).head?.map fun q => q.cypher) = some acs_merge_cypher
    ∧ ((created_event_to_cypher c).head?.bind fun q => q.queryParams.lookup "offset")
        = some (.int (-1))
    ∧ ((created_event_to_cypher c).head?.bind fun q => q.queryParams.lookup "node_id")
        = some (.int 0)
    ∧ get_last_processed_offset (some (-1) :: offs) = get_last_processed_offset offs := by
  refine ⟨rfl, rfl, rfl, rfl, ?_⟩
  unfold get_last_processed_offset
  rw [List.filterMap_cons]
  simp

/-- C5: with a successful graph query, the normal-mode begin offset follows
the spec priority exactly (graph maximum, then configured starting offset,
then pruning offset, then 0), and the empty-everything boundary yields 0. -/
theorem offset_oracle_priority (offs : List (Option Int)) (so : Option Int)
    (pr : Except String Int) (e : String) :
    begin_offset_normal (.ok (get_last_processed_offset offs)) so pr
      = offset_oracle_spec_priority (get_last_processed_offset offs) so (except_to_option pr)
    ∧ begin_offset_normal (.ok none) none (.error e) = 0 := by
  constructor
  · cases get_last_processed_offset offs <;> cases so <;> cases pr <;>
      simp [begin_offset_normal, offset_oracle_spec_priority, except_to_option]
  · rfl

/-- Counterexample to C6: with a failing graph query, a configured starting
offset of 42 and an available pruning offset of 7, the code starts at 7,
not at the configured 42 the claim requires. -/
theorem begin_offset_graph_error_counterexample :
    begin_offset_normal (.error "neo4j connection refused") (some 42) (.ok 7) = 7
    ∧ (7 : Int) ≠ 42 := by
  exact ⟨rfl, by decide⟩

/-- C6 amended: on a graph-query failure the oracle does not abort, but it
skips the configured starting offset entirely: it uses the pruning offset
when available and 0 otherwise, whatever the configuration holds. -/
theorem begin_offset_graph_error_uses_pruning (e : String) (so : Option Int)
    (pr : Except String Int) :
    begin_offset_normal (.error e) so pr
      = (match pr with
         | .ok p => p
         | .error _ => 0) := by
  cases pr <;> rfl

/-- Concrete token state and config for the token manager theorems. -/
def ts0 : TokenState := { token := "cached-token", obtained_at := 0, expires_in_secs := 10 }

def kcfg0 : KeycloakConfig := { client_id := "cid", token_endpoint := "http://idp/token" }

/-- Counterexample to C8: with the default 0.8 threshold, a cached token of
lifetime 10 obtained at time 0 and a failing refresh at time 9 (after the
threshold, before expiry), get_token propagates the error instead of
returning the still-unexpired cached token; the cached state itself stays. -/
theorem get_token_failure_counterexample :
    (get_token 4 5 (.keycloak kcfg0) (.error "connection refused") 9 (some ts0)).1
      = .error "connection refused"
    ∧ (9 : Nat) - ts0.obtained_at < ts0.expires_in_secs
    ∧ (get_token 4 5 (.keycloak kcfg0) (.error "connection refused") 9 (some ts0)).2
        = some ts0 := by
  exact ⟨rfl, by decide, rfl⟩

/-- C8 amended: a failed refresh never touches the cached state; callers of
get_token keep receiving the cached token while its age is below the renewal
threshold, and past the threshold they receive the refresh error (the cache
is not invalidated). -/
theorem token_refresh_failure_keeps_cached_state (rn rd : Nat) (source : TokenSource)
    (http : Except String TokenResponseJson) (now : Nat) (ts : TokenState) (er : String)
    (hfetch : token_source_fetch source http now = .error er) :
    (get_token rn rd source http now (some ts)).2 = some ts
    ∧ (should_refresh rn rd now ts = false →
        (get_token rn rd source http now (some ts)).1 = .ok ts.token)
    ∧ (should_refresh rn rd now ts = true →
        (get_token rn rd source http now (some ts)).1 = .error er) := by
  unfold get_token refresh_token
  cases hsr : should_refresh rn rd now ts <;> simp [hsr, hfetch]

/-- Witness for the amended C8 theorem at the concrete failing refresh. -/
theorem token_refresh_failure_keeps_cached_state_witness :
    (get_token 4 5 (.keycloak kcfg0) (.error "boom") 9 (some ts0)).2 = some ts0
    ∧ (should_refresh 4 5 9 ts0 = false →
        (get_token 4 5 (.keycloak kcfg0) (.error "boom") 9 (some ts0)).1 = .ok ts0.token)
    ∧ (should_refresh 4 5 9 ts0 = true →
        (get_token 4 5 (.keycloak kcfg0) (.error "boom") 9 (some ts0)).1 = .error "boom") :=
  token_refresh_failure_keeps_cached_state 4 5 (.keycloak kcfg0) (.error "boom") 9 ts0 "boom" rfl

/-- An identity-provider response carrying a token but no expires_in. -/
def idp_response_no_expiry : TokenResponseJson :=
  { access_token := some "tok", expires_in := none, token_type := none }

/-- Counterexample to C9: a token response with an access_token but no
expires_in fails the required-field parse, so keycloak_jwt_with_expiry and
hence the refresh fail instead of succeeding with a non-expiring token. -/
theorem missing_expires_in_counterexample :
    keycloak_jwt_with_expiry (.ok idp_response_no_expiry)
      = .error "Failed to parse Keycloak token response"
    ∧ (refresh_token 4 5 (.keycloak kcfg0) (.ok idp_response_no_expiry) 0 none).1
      = .error "Failed to parse Keycloak token response"
    ∧ (refresh_token 4 5 (.keycloak kcfg0) (.ok idp_response_no_expiry) 0 none).2 = none := by
  exact ⟨rfl, rfl, rfl⟩

/-- C9 amended: for the token manager path a response without expires_in is
a parse failure (refresh fails, nothing cached); the plain keycloak_jwt
deserializer does accept it; the only token source treated as effectively
non-expiring is a static token, with lifetime u64 MAX. -/
theorem missing_expires_in_refresh_fails (cfg : KeycloakConfig) (j : TokenResponseJson)
    (t : String) (now : Nat) (hj : j.access_token = some t) (he : j.expires_in = none) :
    keycloak_jwt_with_expiry (.ok j) = .error "Failed to parse Keycloak token response"
    ∧ (refresh_token 4 5 (.keycloak cfg) (.ok j) now none).2 = none
    ∧ parse_token_response_plain j = .ok t
    ∧ token_source_fetch (.staticToken t) (.ok j) now = .ok (t, u64_max) := by
  simp [keycloak_jwt_with_expiry, parse_token_response_with_expiry, refresh_token,
        token_source_fetch, parse_token_response_plain, hj, he]

/-- Witness for the amended C9 theorem at the concrete expiry-free body. -/
theorem missing_expires_in_refresh_fails_witness :
    keycloak_jwt_with_expiry (.ok idp_response_no_expiry)
        = .error "Failed to parse Keycloak token response"
    ∧ (refresh_token 4 5 (.keycloak kcfg0) (.ok idp_response_no_expiry) 3 none).2 = none
    ∧ parse_token_response_plain idp_response_no_expiry = .ok "tok"
    ∧ token_source_fetch (.staticToken "tok") (.ok idp_response_no_expiry) 3
        = .ok ("tok", u64_max) :=
  missing_expires_in_refresh_fails kcfg0 idp_response_no_expiry "tok" 3 rfl rfl

/-- C10: a Transaction update with an empty event list projects to exactly
one statement, the Transaction node CREATE; every batched statement is
guarded by a non-emptiness check on its input collection and is absent. -/
theorem empty_transaction_single_statement (party_iter : List String → List String)
    (r : GetUpdatesResponse) (tx : LapiTransaction)
    (hr : r.update = some (.transaction tx)) (hev : tx.events = []) :
    get_updates_response_to_cypher party_iter r = [transaction_statement tx] := by
  unfold get_updates_response_to_cypher
  rw [hr]
  simp [created_events_json, exercised_events_json, target_rels_json, consumes_rels_json,
        root_exercised_json, root_created_json, requesting_parties,
        structure_markers_from_transaction, extract_edges, extractEdgesLoop, hev]

/-- A transaction with no events, used to exercise the empty projection. -/
def c10_witness_tx : LapiTransaction :=
  { update_id := "u10", command_id := "", workflow_id := "", effective_at := none,
    events := [], offset := 500, synchronizer_id := "", trace_context := none,
    record_time := none }

/-- Witness: the empty transaction projects to its single CREATE statement. -/
theorem empty_transaction_single_statement_witness :
    get_updates_response_to_cypher id { update := some (.transaction c10_witness_tx) }
      = [transaction_statement c10_witness_tx] :=
  empty_transaction_single_statement id
    { update := some (.transaction c10_witness_tx) } c10_witness_tx rfl rfl

/-- Membership after a set insertion. -/
theorem mem_insertIfAbsent (l : List String) (p q : String) :
    q ∈ insertIfAbsent l p ↔ q ∈ l ∨ q = p := by
  unfold insertIfAbsent
  split
  · rename_i hp
    constructor
    · exact fun h => Or.inl h
    · rintro (h | rfl)
      · exact h
      · exact hp
  · simp [List.mem_append]

/-- Membership after folding a party list into the set. -/
theorem mem_foldl_insertIfAbsent (ps : List String) (acc : List String) (q : String) :
    q ∈ ps.foldl insertIfAbsent acc ↔ q ∈ acc ∨ q ∈ ps := by
  induction ps generalizing acc with
  | nil => simp
  | cons p rest ih =>
    rw [List.foldl_cons, ih, mem_insertIfAbsent]
    simp
    tauto

/-- Splitting a bounded existential over a cons cell. -/
theorem exists_mem_cons_split {α : Type} (x : α) (l : List α) (P : α → Prop) :
    (∃ y ∈ x :: l, P y) ↔ P x ∨ ∃ y ∈ l, P y := by
  constructor
  · rintro ⟨y, hy, hP⟩
    rcases List.mem_cons.mp hy with rfl | hy2
    · exact Or.inl hP
    · exact Or.inr ⟨y, hy2, hP⟩
  · rintro (hP | ⟨y, hy, hP⟩)
    · exact ⟨x, List.mem_cons_self x l, hP⟩
    · exact ⟨y, List.mem_cons_of_mem x hy, hP⟩

/-- Membership in the requesting-parties set built by the event loop. -/
theorem mem_requesting_fold (tx : LapiTransaction) (evs : List LapiEvent)
    (acc : List String) (q : String) :
    q ∈ evs.foldl
      (fun acc ev =>
        let acc1 := match ev.event with
          | some (.exercised e) =>
              if e.node_id ∈ child_node_ids tx then acc
              else e.acting_parties.foldl insertIfAbsent acc
          | _ => acc
        match ev.event with
        | some (.created c) =>
            if c.node_id ∈ child_node_ids tx then acc1
            else c.signatories.foldl insertIfAbsent acc1
        | _ => acc1) acc
    ↔ q ∈ acc
      ∨ (∃ ev ∈ evs, ∃ ex, ev.event = some (.exercised ex)
          ∧ ex.node_id ∉ child_node_ids tx ∧ q ∈ ex.acting_parties)
      ∨ (∃ ev ∈ evs, ∃ cr, ev.event = some (.created cr)
          ∧ cr.node_id ∉ child_node_ids tx ∧ q ∈ cr.signatories) := by
  induction evs generalizing acc with
  | nil => simp
  | cons ev rest ih =>
    rw [List.foldl_cons, ih,
        exists_mem_cons_split ev rest
          (fun ev2 => ∃ ex, ev2.event = some (.exercised ex)
            ∧ ex.node_id ∉ child_node_ids tx ∧ q ∈ ex.acting_parties),
        exists_mem_cons_split ev rest
          (fun ev2 => ∃ cr, ev2.event = some (.created cr)
            ∧ cr.node_id ∉ child_node_ids tx ∧ q ∈ cr.signatories)]
    cases hev : ev.event with
    | none =>
      have hP : (∃ ex, (none : Option EventSum) = some (.exercised ex)
          ∧ ex.node_id ∉ child_node_ids tx ∧ q ∈ ex.acting_parties) ↔ False := by simp
      have hQ : (∃ cr, (none : Option EventSum) = some (.created cr)
          ∧ cr.node_id ∉ child_node_ids tx ∧ q ∈ cr.signatories) ↔ False := by simp
      rw [hP, hQ]
      show (q ∈ acc ∨ _ ∨ _) ↔ _
      itauto
    | some es =>
      cases es with
      | created c =>
        have hP : (∃ ex, (some (EventSum.created c) : Option EventSum) = some (.exercised ex)
            ∧ ex.node_id ∉ child_node_ids tx ∧ q ∈ ex.acting_parties) ↔ False := by simp
        by_cases hc : c.node_id ∈ child_node_ids tx
        · have hQ : (∃ cr, (some (EventSum.created c) : Option EventSum) = some (.created cr)
              ∧ cr.node_id ∉ child_node_ids tx ∧ q ∈ cr.signatories) ↔ False := by
            simp [hc]
          rw [hP, hQ]
          show (q ∈ (if c.node_id ∈ child_node_ids tx then acc
                     else List.foldl insertIfAbsent acc c.signatories) ∨ _ ∨ _) ↔ _
          rw [if_pos hc]
          itauto
        · have hQ : (∃ cr, (some (EventSum.created c) : Option EventSum) = some (.created cr)
              ∧ cr.node_id ∉ child_node_ids tx ∧ q ∈ cr.signatories) ↔ q ∈ c.signatories := by
            simp [hc]
          rw [hP, hQ]
          show (q ∈ (if c.node_id ∈ child_node_ids tx then acc
                     else List.foldl insertIfAbsent acc c.signatories) ∨ _ ∨ _) ↔ _
          rw [if_neg hc, mem_foldl_insertIfAbsent]
          itauto
      | archived cid =>
        have hP : (∃ ex, (some (EventSum.archived cid) : Option EventSum) = some (.exercised ex)
            ∧ ex.node_id ∉ child_node_ids tx ∧ q ∈ ex.acting_parties) ↔ False := by simp
        have hQ : (∃ cr, (some (EventSum.archived cid) : Option EventSum) = some (.created cr)
            ∧ cr.node_id ∉ child_node_ids tx ∧ q ∈ cr.signatories) ↔ False := by simp
        rw [hP, hQ]
        show (q ∈ acc ∨ _ ∨ _) ↔ _
        itauto
      | exercised e =>
        have hQ : (∃ cr, (some (EventSum.exercised e) : Option EventSum) = some (.created cr)
            ∧ cr.node_id ∉ child_node_ids tx ∧ q ∈ cr.signatories) ↔ False := by simp
        by_cases hx : e.node_id ∈ child_node_ids tx
        · have hP : (∃ ex, (some (EventSum.exercised e) : Option EventSum) = some (.exercised ex)
              ∧ ex.node_id ∉ child_node_ids tx ∧ q ∈ ex.acting_parties) ↔ False := by
            simp [hx]
          rw [hP, hQ]
          show (q ∈ (if e.node_id ∈ child_node_ids tx then acc
                     else List.foldl insertIfAbsent acc e.acting_parties) ∨ _ ∨ _) ↔ _
          rw [if_pos hx]
          itauto
        · have hP : (∃ ex, (some (EventSum.exercised e) : Option EventSum) = some (.exercised ex)
              ∧ ex.node_id ∉ child_node_ids tx ∧ q ∈ ex.acting_parties) ↔ q ∈ e.acting_parties := by
            simp [hx]
          rw [hP, hQ]
          show (q ∈ (if e.node_id ∈ child_node_ids tx then acc
                     else List.foldl insertIfAbsent acc e.acting_parties) ∨ _ ∨ _) ↔ _
          rw [if_neg hx, mem_foldl_insertIfAbsent]
          itauto

/-- The requesting-parties set contains exactly the acting parties of root
Exercised events and the signatories of root Created events. -/
theorem mem_requesting_parties (tx : LapiTransaction) (q : String) :
    q ∈ requesting_parties tx
    ↔ (∃ ev ∈ tx.events, ∃ ex, ev.event = some (.exercised ex)
        ∧ ex.node_id ∉ child_node_ids tx ∧ q ∈ ex.acting_parties)
      ∨ (∃ ev ∈ tx.events, ∃ cr, ev.event = some (.created cr)
        ∧ cr.node_id ∉ child_node_ids tx ∧ q ∈ cr.signatories) := by
  unfold requesting_parties
  rw [mem_requesting_fold]
  simp

/-- Extracts the party_id field of one element of the batched parties
parameter. -/
def party_id_of_elem : Json → Option String
  | .obj kvs =>
    match kvs.lookup "party_id" with
    | some (.str s) => some s
    | _ => none
  | _ => none

/-- The party_id values carried by a batched parties parameter. -/
def party_ids_of_json : Json → List String
  | .arr xs => xs.filterMap party_id_of_elem
  | _ => []

/-- The party_id values of all json parameters of one statement. -/
def json_params_party_ids (q : CypherQuery) : List String :=
  q.queryParams.flatMap fun kv =>
    match kv.2 with
    | .json j => party_ids_of_json j
    | _ => []

/-- The party ids carried by the statements with a given cypher text. -/
def statements_parties_for (c : String) (qs : List CypherQuery) : List String :=
  qs.flatMap fun q => if q.cypher = c then json_params_party_ids q else []

/-- The parties that receive a REQUESTED relationship in an output. -/
def requested_statement_parties (qs : List CypherQuery) : List String :=
  statements_parties_for requested_cypher qs

/-- The parties that receive a Party MERGE in an output. -/
def merge_statement_parties (qs : List CypherQuery) : List String :=
  statements_parties_for party_merge_cypher qs

/-- The first eight statement groups of the projection: everything except
the Party MERGE and REQUESTED statements. None of these depend on the
HashSet iteration order. -/
def projection_head_statements (tx : LapiTransaction) : List CypherQuery :=
  [transaction_statement tx]
  ++ (if (created_events_json tx).isEmpty then []
      else [with_json_param (cypherQueryNew created_batch_cypher) "events"
              (Json.arr (created_events_json tx))])
  ++ (if (exercised_events_json tx).isEmpty then []
      else [with_json_param (cypherQueryNew exercised_batch_cypher) "events"
              (Json.arr (exercised_events_json tx))])
  ++ (if (extract_edges (structure_markers_from_transaction tx)).isEmpty then []
      else [with_json_param (cypherQueryNew consequence_cypher) "edges"
              (Json.arr ((extract_edges (structure_markers_from_transaction tx)).map edge_json))])
  ++ (if (target_rels_json tx).isEmpty then []
      else [with_json_param (cypherQueryNew target_cypher) "rels"
              (Json.arr (target_rels_json tx))])
  ++ (if (consumes_rels_json tx).isEmpty then []
      else [with_json_param (cypherQueryNew consumes_cypher) "rels"
              (Json.arr (consumes_rels_json tx))])
  ++ (if (root_exercised_json tx).isEmpty then []
      else [with_json_param (cypherQueryNew action_exercised_cypher) "rels"
              (Json.arr (root_exercised_json tx))])
  ++ (if (root_created_json tx).isEmpty then []
      else [with_json_param (cypherQueryNew action_created_cypher) "rels"
              (Json.arr (root_created_json tx))])

/-- The Party MERGE / REQUESTED statement pair, the only part of the output
built from the ordered party iteration. -/
def party_segment (party_iter : List String → List String) (tx : LapiTransaction) :
    List CypherQuery :=
  if (requesting_parties tx).isEmpty then []
  else
    [with_json_param (cypherQueryNew party_merge_cypher) "parties"
       (Json.arr ((party_iter (requesting_parties tx)).map (party_json tx.offset))),
     with_json_param (cypherQueryNew requested_cypher) "parties"
       (Json.arr ((party_iter (requesting_parties tx)).map (party_json tx.offset)))]

/-- The projection output decomposes as the order-independent prefix plus
the party segment. -/
theorem projection_decomposition (party_iter : List String → List String)
    (tx : LapiTransaction) :
    get_updates_response_to_cypher party_iter { update := some (.transaction tx) }
      = projection_head_statements tx ++ party_segment party_iter tx := rfl

/-- Party extraction on the batched parties array recovers the party list. -/
theorem party_ids_of_party_json (off : Int) (l : List String) :
    party_ids_of_json (Json.arr (l.map (party_json off))) = l := by
  induction l with
  | nil => rfl
  | cons p rest ih =>
    have hhead : party_id_of_elem (party_json off p) = some p := rfl
    have ih2 : List.filterMap party_id_of_elem (rest.map (party_json off)) = rest := ih
    show List.filterMap party_id_of_elem
      (party_json off p :: rest.map (party_json off)) = p :: rest
    rw [List.filterMap_cons_some hhead, ih2]

theorem statements_parties_for_append (c : String) (qs1 qs2 : List CypherQuery) :
    statements_parties_for c (qs1 ++ qs2)
      = statements_parties_for c qs1 ++ statements_parties_for c qs2 := by
  unfold statements_parties_for
  rw [List.flatMap_append]

theorem statements_parties_for_singleton_ne (c : String) (q : CypherQuery)
    (h : ¬ q.cypher = c) :
    statements_parties_for c [q] = [] := by
  unfold statements_parties_for
  rw [List.flatMap_cons, List.flatMap_nil, if_neg h, List.nil_append]

theorem statements_parties_for_ite_ne (cond : Prop) [Decidable cond] (c : String)
    (q : CypherQuery) (h : ¬ q.cypher = c) :
    statements_parties_for c (if cond then [] else [q]) = [] := by
  split
  · rfl
  · exact statements_parties_for_singleton_ne c q h

/-- The order-independent prefix carries no statement with the given cypher
whenever that cypher differs from all eight prefix statement texts. -/
theorem statements_parties_for_head (c : String) (tx : LapiTransaction)
    (h1 : ¬ tx_create_cypher = c) (h2 : ¬ created_batch_cypher = c)
    (h3 : ¬ exercised_batch_cypher = c) (h4 : ¬ consequence_cypher = c)
    (h5 : ¬ target_cypher = c) (h6 : ¬ consumes_cypher = c)
    (h7 : ¬ action_exercised_cypher = c) (h8 : ¬ action_created_cypher = c) :
    statements_parties_for c (projection_head_statements tx) = [] := by
  unfold projection_head_statements
  rw [statements_parties_for_append, statements_parties_for_append,
      statements_parties_for_append, statements_parties_for_append,
      statements_parties_for_append, statements_parties_for_append,
      statements_parties_for_append]
  rw [statements_parties_for_singleton_ne c _ h1,
      statements_parties_for_ite_ne _ c _ h2,
      statements_parties_for_ite_ne _ c _ h3,
      statements_parties_for_ite_ne _ c _ h4,
      statements_parties_for_ite_ne _ c _ h5,
      statements_parties_for_ite_ne _ c _ h6,
      statements_parties_for_ite_ne _ c _ h7,
      statements_parties_for_ite_ne _ c _ h8]
  rfl

theorem with_json_param_cypher (q : CypherQuery) (k : String) (v : Json) :
    (with_json_param q k v).cypher = q.cypher := rfl

theorem cypherQueryNew_cypher (c : String) : (cypherQueryNew c).cypher = c := rfl

theorem with_json_param_queryParams (c k : String) (v : Json) :
    (with_json_param (cypherQueryNew c) k v).queryParams = [(k, .json v)] := rfl

/-- The party segment carries exactly the iterated requesting parties, and
the MERGE and REQUESTED statements carry the same party list. -/
theorem statements_parties_for_segment (party_iter : List String → List String)
    (tx : LapiTransaction) :
    requested_statement_parties (party_segment party_iter tx)
      = (if (requesting_parties tx).isEmpty then []
         else party_iter (requesting_parties tx))
    ∧ merge_statement_parties (party_segment party_iter tx)
      = requested_statement_parties (party_segment party_iter tx) := by
  unfold party_segment requested_statement_parties merge_statement_parties
  split
  · exact ⟨rfl, rfl⟩
  · have hids : json_params_party_ids
        (with_json_param (cypherQueryNew requested_cypher) "parties"
          (Json.arr ((party_iter (requesting_parties tx)).map (party_json tx.offset))))
        = party_iter (requesting_parties tx) := by
      unfold json_params_party_ids
      rw [with_json_param_queryParams, List.flatMap_cons, List.flatMap_nil, List.append_nil]
      exact party_ids_of_party_json tx.offset _
    constructor
    · unfold statements_parties_for
      have hmr : ¬ party_merge_cypher = requested_cypher := by decide
      simp only [List.flatMap_cons, List.flatMap_nil, with_json_param_cypher,
                 cypherQueryNew_cypher, if_neg hmr, eq_self_iff_true, if_true,
                 List.append_nil, List.nil_append]
      exact hids
    · unfold statements_parties_for
      have hmr : ¬ party_merge_cypher = requested_cypher := by decide
      have hrm : ¬ requested_cypher = party_merge_cypher := by decide
      simp only [List.flatMap_cons, List.flatMap_nil, with_json_param_cypher,
                 cypherQueryNew_cypher, if_neg hmr, if_neg hrm, eq_self_iff_true, if_true,
                 List.append_nil, List.nil_append]
      rfl

/-- The party ids the output grants REQUESTED edges: empty when the
requesting set is empty, otherwise exactly the iterated set; and the MERGE
batch always names the same parties as the REQUESTED batch. -/
theorem requested_parties_of_output (party_iter : List String → List String)
    (r : GetUpdatesResponse) (tx : LapiTransaction)
    (hr : r.update = some (.transaction tx)) :
    requested_statement_parties (get_updates_response_to_cypher party_iter r)
      = (if (requesting_parties tx).isEmpty then []
         else party_iter (requesting_parties tx))
    ∧ merge_statement_parties (get_updates_response_to_cypher party_iter r)
      = requested_statement_parties (get_updates_response_to_cypher party_iter r) := by
  obtain ⟨upd⟩ := r
  simp only at hr
  subst hr
  rw [projection_decomposition]
  unfold requested_statement_parties merge_statement_parties
  rw [statements_parties_for_append, statements_parties_for_append]
  rw [statements_parties_for_head requested_cypher tx (by decide) (by decide) (by decide)
      (by decide) (by decide) (by decide) (by decide) (by decide)]
  rw [statements_parties_for_head party_merge_cypher tx (by decide) (by decide) (by decide)
      (by decide) (by decide) (by decide) (by decide) (by decide)]
  rw [List.nil_append, List.nil_append]
  exact statements_parties_for_segment party_iter tx

/-- C3: the set of parties given a Party MERGE and a REQUESTED relationship
is exactly the union of acting parties over root Exercised events and
signatories over root Created events, where root means not a child in any
structure edge; a party appearing only on a nested Created gets nothing. -/
theorem requested_parties_exactly_root_union (party_iter : List String → List String)
    (hpi : ∀ l : List String, (party_iter l).Perm l)
    (r : GetUpdatesResponse) (tx : LapiTransaction)
    (hr : r.update = some (.transaction tx)) (p : String) :
    merge_statement_parties (get_updates_response_to_cypher party_iter r)
      = requested_statement_parties (get_updates_response_to_cypher party_iter r)
    ∧ (p ∈ requested_statement_parties (get_updates_response_to_cypher party_iter r) ↔
        (∃ ev ∈ tx.events, ∃ ex, ev.event = some (.exercised ex)
          ∧ ex.node_id ∉ child_node_ids tx ∧ p ∈ ex.acting_parties)
        ∨ (∃ ev ∈ tx.events, ∃ cr, ev.event = some (.created cr)
          ∧ cr.node_id ∉ child_node_ids tx ∧ p ∈ cr.signatories)) := by
  obtain ⟨hreq, hmerge⟩ := requested_parties_of_output party_iter r tx hr
  refine ⟨hmerge, ?_⟩
  rw [hreq, ← mem_requesting_parties]
  split
  · rename_i hE
    rw [List.isEmpty_iff] at hE
    rw [hE]
  · exact (hpi _).mem_iff

/-- Witness response for the party theorems: the nested-create transaction,
where Bob signs only the nested Created. -/
def c3_witness_response : GetUpdatesResponse :=
  { update := some (.transaction c1_witness_tx) }

/-- Witness: applying the party characterization to the nested-create
transaction and the party Bob. -/
theorem requested_parties_exactly_root_union_witness :
    merge_statement_parties (get_updates_response_to_cypher id c3_witness_response)
      = requested_statement_parties (get_updates_response_to_cypher id c3_witness_response)
    ∧ ("Bob" ∈ requested_statement_parties (get_updates_response_to_cypher id c3_witness_response) ↔
        (∃ ev ∈ c1_witness_tx.events, ∃ ex, ev.event = some (.exercised ex)
          ∧ ex.node_id ∉ child_node_ids c1_witness_tx ∧ "Bob" ∈ ex.acting_parties)
        ∨ (∃ ev ∈ c1_witness_tx.events, ∃ cr, ev.event = some (.created cr)
          ∧ cr.node_id ∉ child_node_ids c1_witness_tx ∧ "Bob" ∈ cr.signatories)) :=
  requested_parties_exactly_root_union id (fun l => List.Perm.refl l)
    c3_witness_response c1_witness_tx rfl "Bob"

/-- A transaction whose single root Exercised event has two acting parties,
so the requesting set has two elements. -/
def c2_tx : LapiTransaction :=
  { update_id := "u2", command_id := "", workflow_id := "", effective_at := none,
    events :=
      [{ event := some (.exercised
           { offset := 9, node_id := 0, contract_id := "c9", choice := "Do",
             choice_argument := none, acting_parties := ["Alice", "Bob"],
             consuming := false, exercise_result := none,
             last_descendant_node_id := 0 }) }],
    offset := 9, synchronizer_id := "", trace_context := none, record_time := none }

def c2_response : GetUpdatesResponse := { update := some (.transaction c2_tx) }

/-- Counterexample to C2: two set-iteration orders that are both valid for
the requesting-parties HashSet produce different statement sequences — the
parties array of the Party statements is ordered differently — so two
invocations are not byte-identical. -/
theorem projection_party_order_counterexample :
    (∀ l : List String, (id l).Perm l)
    ∧ (∀ l : List String, l.reverse.Perm l)
    ∧ requested_statement_parties (get_updates_response_to_cypher id c2_response)
        = ["Alice", "Bob"]
    ∧ requested_statement_parties (get_updates_response_to_cypher List.reverse c2_response)
        = ["Bob", "Alice"]
    ∧ get_updates_response_to_cypher id c2_response
        ≠ get_updates_response_to_cypher List.reverse c2_response := by
  have h3 : requested_statement_parties (get_updates_response_to_cypher id c2_response)
      = ["Alice", "Bob"] := by decide
  have h4 : requested_statement_parties (get_updates_response_to_cypher List.reverse c2_response)
      = ["Bob", "Alice"] := by decide
  refine ⟨fun l => List.Perm.refl l, fun l => List.reverse_perm l, h3, h4, ?_⟩
  intro heq
  have hcongr := congrArg requested_statement_parties heq
  rw [h3, h4] at hcongr
  exact absurd hcongr (by decide)

/-- C2 amended: the projection is deterministic given the set-iteration
order; for any two valid orders the outputs share the whole order-free
prefix, the statement cypher texts agree position by position, and the
REQUESTED party lists are permutations of each other. -/
theorem projection_deterministic_up_to_party_order (ord1 ord2 : List String → List String)
    (h1 : ∀ l : List String, (ord1 l).Perm l) (h2 : ∀ l : List String, (ord2 l).Perm l)
    (r : GetUpdatesResponse) :
    ∃ common ps1 ps2 : List CypherQuery,
      get_updates_response_to_cypher ord1 r = common ++ ps1
      ∧ get_updates_response_to_cypher ord2 r = common ++ ps2
      ∧ ps1.map (fun q => q.cypher) = ps2.map (fun q => q.cypher)
      ∧ (requested_statement_parties (get_updates_response_to_cypher ord1 r)).Perm
          (requested_statement_parties (get_updates_response_to_cypher ord2 r)) := by
  obtain ⟨upd⟩ := r
  cases upd with
  | none => exact ⟨[], [], [], rfl, rfl, rfl, List.Perm.refl _⟩
  | some u =>
    cases u with
    | transaction tx =>
      refine ⟨projection_head_statements tx, party_segment ord1 tx, party_segment ord2 tx,
        projection_decomposition ord1 tx, projection_decomposition ord2 tx, ?_, ?_⟩
      · by_cases hE : (requesting_parties tx).isEmpty = true
        · simp [party_segment, hE]
        · simp [party_segment, hE]
          exact ⟨rfl, rfl⟩
      · obtain ⟨hA, -⟩ := requested_parties_of_output ord1
          { update := some (.transaction tx) } tx rfl
        obtain ⟨hB, -⟩ := requested_parties_of_output ord2
          { update := some (.transaction tx) } tx rfl
        rw [hA, hB]
        split
        · exact List.Perm.refl _
        · exact (h1 _).trans (h2 _).symm
    | reassignment o => exact ⟨[], [], [], rfl, rfl, rfl, List.Perm.refl _⟩
    | offsetCheckpoint o => exact ⟨[], [], [], rfl, rfl, rfl, List.Perm.refl _⟩
    | topologyTransaction o => exact ⟨[], [], [], rfl, rfl, rfl, List.Perm.refl _⟩

/-- Witness for the amended determinism theorem at two concrete orders. -/
theorem projection_deterministic_up_to_party_order_witness :
    ∃ common ps1 ps2 : List CypherQuery,
      get_updates_response_to_cypher id c2_response = common ++ ps1
      ∧ get_updates_response_to_cypher List.reverse c2_response = common ++ ps2
      ∧ ps1.map (fun q => q.cypher) = ps2.map (fun q => q.cypher)
      ∧ (requested_statement_parties (get_updates_response_to_cypher id c2_response)).Perm
          (requested_statement_parties (get_updates_response_to_cypher List.reverse c2_response)) :=
  projection_deterministic_up_to_party_order id List.reverse
    (fun l => List.Perm.refl l) (fun l => List.reverse_perm l) c2_response

/-- Concrete created events sharing one contract id, for the write
semantics. -/
def acs_created_c1 : CreatedEvent :=
  { offset := 0, node_id := 0, contract_id := "c1", template_id := none,
    create_arguments := none, created_at := none, signatories := ["Alice"] }

def stream_created_c1 : CreatedEvent :=
  { offset := 100, node_id := 0, contract_id := "c1", template_id := none,
    create_arguments := none, created_at := none, signatories := ["Alice"] }

/-- Counterexample to C7: ACS-merging contract c1 into an empty graph and
then executing the streaming CREATE for the same contract id leaves two
Created nodes with contract_id c1, not the single node the claim states. -/
theorem duplicate_created_node_counterexample :
    ((apply_stream_create (apply_acs_merge [] acs_created_c1) stream_created_c1).filter
        fun n => n.contract_id == "c1").length = 2
    ∧ (2 : Nat) ≠ 1 := by
  exact ⟨rfl, by decide⟩

/-- C7 amended: neither write modifies an existing node — the ACS MERGE is a
no-op when the contract id exists and the streaming write appends a fresh
node — but the streaming statement is a plain CREATE, so it adds a second
Created node with the same contract_id instead of keeping one node. -/
theorem created_writes_never_overwrite (g : List CreatedGraphNode) (cA cS : CreatedEvent) :
    (∀ n ∈ g, n ∈ apply_stream_create (apply_acs_merge g cA) cS)
    ∧ ((g.any fun n => n.contract_id == cA.contract_id) = true → apply_acs_merge g cA = g)
    ∧ apply_stream_create (apply_acs_merge g cA) cS
        = apply_acs_merge g cA ++
          [{ contract_id := cS.contract_id,
             properties := [("e", .json (created_event_json cS))], from_acs := false }] := by
  refine ⟨?_, ?_, rfl⟩
  · intro n hn
    unfold apply_stream_create apply_acs_merge
    split
    · simp [hn]
    · simp [hn]
  · intro h
    unfold apply_acs_merge
    rw [if_pos h]

/-- A one-node graph already holding contract c1 from the ACS. -/
def g0 : List CreatedGraphNode :=
  [{ contract_id := "c1", properties := [], from_acs := true }]

/-- Witness for the amended write-semantics theorem on a nonempty graph. -/
theorem created_writes_never_overwrite_witness :
    (∀ n ∈ g0, n ∈ apply_stream_create (apply_acs_merge g0 acs_created_c1) stream_created_c1)
    ∧ ((g0.any fun n => n.contract_id == acs_created_c1.contract_id) = true →
        apply_acs_merge g0 acs_created_c1 = g0)
    ∧ apply_stream_create (apply_acs_merge g0 acs_created_c1) stream_created_c1
        = apply_acs_merge g0 acs_created_c1 ++
          [{ contract_id := stream_created_c1.contract_id,
             properties := [("e", .json (created_event_json stream_created_c1))],
             from_acs := false }] :=
  created_writes_never_overwrite g0 acs_created_c1 stream_created_c1
